import Mathlib

/-!
Verification development for the Date-manipulation repository.

The JavaScript source is shallowly embedded: JS strings become `List Char`,
JS numbers that may be `NaN` become `Option Int`, and the ECMAScript `Date`
object is represented by its time value measured in minutes since the epoch
(all code paths construct dates from whole minutes). `none` stands for an
invalid date (time value `NaN`).
-/

namespace DateRepo

abbrev JStr := List Char

/-! ### JS string primitives -/

/-- Whitespace characters recognised when splitting on the regex
of the source (space, tab, newline, carriage return, vertical tab, form feed). -/
def isWsChar (c : Char) : Bool :=
  c = ' ' || c = '\t' || c = '\n' || c = '\r' || c = '\x0b' || c = '\x0c'

/-- Model of `String.prototype.trim`. -/
def jsTrim (l : JStr) : JStr :=
  ((l.dropWhile isWsChar).reverse.dropWhile isWsChar).reverse

/-- Loop of splitting on runs of whitespace.  `cur` is the reversed current
token; `inWs` records being inside a whitespace run (whose piece is already
emitted), so further whitespace is skipped and a run reaching the end of the
string leaves a final empty piece. -/
def splitWsM : JStr → JStr → Bool → List JStr
  | [], _, true => [[]]
  | [], cur, false => [cur.reverse]
  | c :: rest, _, true =>
    if isWsChar c then splitWsM rest [] true
    else splitWsM rest [c] false
  | c :: rest, cur, false =>
    if isWsChar c then cur.reverse :: splitWsM rest [] true
    else splitWsM rest (c :: cur) false

/-- Model of splitting a JS string on a whitespace-run regex: pieces between
maximal whitespace runs, with an empty leading piece when the string starts
with whitespace and an empty trailing piece when it ends with whitespace. -/
def jsSplitWs (l : JStr) : List JStr := splitWsM l [] false

/-- Splitting on a literal colon, as in `String.prototype.split` with a
one-character separator. -/
def splitColonAux : JStr → JStr → List JStr
  | [], cur => [cur.reverse]
  | c :: rest, cur =>
    if c = ':' then cur.reverse :: splitColonAux rest []
    else splitColonAux rest (c :: cur)

def splitColon (l : JStr) : List JStr := splitColonAux l []

/-- Does `needle` occur at the head of `hay`. -/
def leadMatch : JStr → JStr → Bool
  | _, [] => true
  | [], _ :: _ => false
  | a :: as, b :: bs => a = b && leadMatch as bs

/-- Model of `String.prototype.includes`. -/
def hasSub : JStr → JStr → Bool
  | [], needle => needle.isEmpty
  | a :: t, needle => leadMatch (a :: t) needle || hasSub t needle

/-- ASCII lower-casing of a character (all the source lower-cases are ASCII). -/
def lowerChar (c : Char) : Char :=
  if 'A' ≤ c && c ≤ 'Z' then Char.ofNat (c.toNat + 32) else c

/-! ### JS number primitives -/

/-- Value of a list of decimal digit characters. -/
def digitsVal (l : JStr) : Int :=
  l.foldl (fun a c => a * 10 + ((c.toNat : Int) - 48)) 0

def isHexDigitChar (c : Char) : Bool :=
  c.isDigit || ('a' ≤ c && c ≤ 'f') || ('A' ≤ c && c ≤ 'F')

def hexDigitVal (c : Char) : Int :=
  if c.isDigit then (c.toNat : Int) - 48
  else if 'a' ≤ c then (c.toNat : Int) - 87
  else (c.toNat : Int) - 55

def hexsVal (l : JStr) : Int :=
  l.foldl (fun a c => a * 16 + hexDigitVal c) 0

/-- Does the string start with the hexadecimal head `0x` or `0X`. -/
def hexHead (l : JStr) : Bool :=
  match l with
  | c0 :: c1 :: _ => c0 = '0' && (c1 = 'x' || c1 = 'X')
  | _ => false

/-- Model of `parseInt(s)` with no radix argument: skip leading whitespace,
read an optional sign, switch to hexadecimal after a `0x`/`0X` head, then take
the longest run of digits; `none` models the `NaN` result when no digit is
read. -/
def jsParseInt (l : JStr) : Option Int :=
  let l1 := l.dropWhile isWsChar
  let sgn : Int := match l1 with
    | c :: _ => if c = '-' then -1 else 1
    | [] => 1
  let l2 : JStr := match l1 with
    | c :: rest => if c = '-' || c = '+' then rest else l1
    | [] => l1
  if hexHead l2 then
    let ds := (l2.drop 2).takeWhile isHexDigitChar
    if ds.isEmpty then none else some (sgn * hexsVal ds)
  else
    let ds := l2.takeWhile (fun c => c.isDigit)
    if ds.isEmpty then none else some (sgn * digitsVal ds)

/-- Decimal digits of a natural number, most significant first; the fuel
argument dominates the number of digits. -/
def renderNatFuel : Nat → Nat → JStr → JStr
  | 0, _, acc => acc
  | fuel + 1, n, acc =>
    if n < 10 then Nat.digitChar n :: acc
    else renderNatFuel fuel (n / 10) (Nat.digitChar (n % 10) :: acc)

def renderNat (n : Nat) : JStr := renderNatFuel (n + 1) n []

/-- Rendering an integer the way a JS template literal renders an
integral Number of moderate magnitude. -/
def renderInt (n : Int) : JStr :=
  if n < 0 then '-' :: renderNat n.natAbs else renderNat n.toNat

/-- Rendering a possibly-`NaN` number in a template literal. -/
def renderOptInt : Option Int → JStr
  | none => "NaN".data
  | some v => renderInt v

/-- Model of `padStart(2, "0")`. -/
def padStart2 (l : JStr) : JStr :=
  if l.length = 0 then ['0', '0']
  else if l.length = 1 then '0' :: l
  else l

/-! ### ECMAScript Date core (time values in minutes since the epoch) -/

/-- ECMAScript `DayFromYear`. -/
def dayFromYear (y : Int) : Int :=
  365 * (y - 1970) + (y - 1969) / 4 - (y - 1901) / 100 + (y - 1601) / 400

/-- ECMAScript `DaysInYear`. -/
def daysInYear (y : Int) : Int :=
  if y % 4 ≠ 0 then 365
  else if y % 100 ≠ 0 then 366
  else if y % 400 ≠ 0 then 365
  else 366

/-- ECMAScript `InLeapYear`. -/
def inLeapYear (y : Int) : Bool := daysInYear y = 366

/-- Day number, within a year, of the first day of month `m` (0-indexed). -/
def monthStart (leap : Bool) (m : Int) : Int :=
  let L : Int := if leap then 1 else 0
  if m = 0 then 0
  else if m = 1 then 31
  else if m = 2 then 59 + L
  else if m = 3 then 90 + L
  else if m = 4 then 120 + L
  else if m = 5 then 151 + L
  else if m = 6 then 181 + L
  else if m = 7 then 212 + L
  else if m = 8 then 243 + L
  else if m = 9 then 273 + L
  else if m = 10 then 304 + L
  else 334 + L

/-- Length of month `m` (0-indexed) in a year of the given leapness. -/
def monthLen (leap : Bool) (m : Int) : Int :=
  if m = 1 then (if leap then 29 else 28)
  else if m = 3 || m = 5 || m = 8 || m = 10 then 30
  else 31

/-- ECMAScript `MakeDay`: month is first normalised with floored
division/modulus, then the day count is formed; the `date` argument is not
range-checked, so out-of-range days roll over arithmetically. -/
def makeDay (y m d : Int) : Int :=
  let ym := y + m / 12
  let mn := m % 12
  dayFromYear ym + monthStart (inLeapYear ym) mn + (d - 1)

/-- The `Date(year, ...)` constructor maps years 0..99 to 1900 + year. -/
def fullYearOf (y : Int) : Int :=
  if 0 ≤ y && y ≤ 99 then 1900 + y else y

/-- ECMAScript `TimeClip`, stated on time values in minutes: the millisecond
bound 8.64e15 corresponds to 1.44e11 minutes.  `none` is an invalid date. -/
def timeClip (t : Int) : Option Int :=
  if t.natAbs ≤ 144000000000 then some t else none

/-- Model of `new Date(year, month, day, hour, minute)`; any `NaN` argument
gives an invalid date. -/
def jsMakeDate (y mo d h mi : Option Int) : Option Int :=
  match y, mo, d, h, mi with
  | some y, some mo, some d, some h, some mi =>
    timeClip (makeDay (fullYearOf y) mo d * 1440 + h * 60 + mi)
  | _, _, _, _, _ => none

/-- Model of `date.setHours(date.getHours() + delta)`: on a valid date whose
seconds and milliseconds are zero this adds exactly `delta` hours and re-clips;
a `NaN` delta or an invalid date gives an invalid date. -/
def jsSetHoursAdd (t : Option Int) (delta : Option Int) : Option Int :=
  match t, delta with
  | some tv, some dv => timeClip (tv + dv * 60)
  | _, _ => none

/-- ECMAScript `Day(t)`. -/
def jsDay (t : Int) : Int := t / 1440

/-- `YearFromTime`, computed as the unique year whose day range contains the
day number: a linear approximation followed by an off-by-one correction. -/
def yearFromDay (d : Int) : Int :=
  let y1 := 1970 + (400 * d) / 146097
  if d < dayFromYear y1 then y1 - 1
  else if d < dayFromYear (y1 + 1) then y1
  else y1 + 1

/-- ECMAScript `DayWithinYear`. -/
def dayWithinYear (d : Int) : Int := d - dayFromYear (yearFromDay d)

/-- ECMAScript `MonthFromTime`, from the day within the year. -/
def monthFromDoy (leap : Bool) (doy : Int) : Int :=
  let L : Int := if leap then 1 else 0
  if doy < 31 then 0
  else if doy < 59 + L then 1
  else if doy < 90 + L then 2
  else if doy < 120 + L then 3
  else if doy < 151 + L then 4
  else if doy < 181 + L then 5
  else if doy < 212 + L then 6
  else if doy < 243 + L then 7
  else if doy < 273 + L then 8
  else if doy < 304 + L then 9
  else if doy < 334 + L then 10
  else 11

def getFullYear (t : Option Int) : Option Int :=
  t.map fun tv => yearFromDay (jsDay tv)

def getMonth (t : Option Int) : Option Int :=
  t.map fun tv =>
    monthFromDoy (inLeapYear (yearFromDay (jsDay tv))) (dayWithinYear (jsDay tv))

/-- ECMAScript `DateFromTime` (the day of the month, 1-based). -/
def getDate (t : Option Int) : Option Int :=
  t.map fun tv =>
    let y := yearFromDay (jsDay tv)
    let doy := dayWithinYear (jsDay tv)
    doy - monthStart (inLeapYear y) (monthFromDoy (inLeapYear y) doy) + 1

def getHours (t : Option Int) : Option Int :=
  t.map fun tv => tv / 60 % 24

def getMinutes (t : Option Int) : Option Int :=
  t.map fun tv => tv % 60

/-! ### DateManipulator (src/advanced.js) -/

def MONTHS : List JStr :=
  ["January".data, "February".data, "March".data, "April".data, "May".data,
   "June".data, "July".data, "August".data, "September".data, "October".data,
   "November".data, "December".data]

def SUPPORTED_TIMEZONES : List JStr :=
  ["EST".data, "PST".data, "CST".data, "MST".data, "UTC".data, "GMT".data]

/-- The timezone offset table; `none` models the `undefined` read of a
missing key. -/
def TIMEZONE_OFFSETS (tz : JStr) : Option Int :=
  if tz = "EST".data then some (-5)
  else if tz = "PST".data then some (-8)
  else if tz = "CST".data then some (-6)
  else if tz = "MST".data then some (-7)
  else if tz = "UTC".data then some 0
  else if tz = "GMT".data then some 0
  else none

instance {ε α : Type} [DecidableEq ε] [DecidableEq α] : DecidableEq (Except ε α) :=
  fun a b =>
    match a, b with
    | .error x, .error y =>
      match decEq x y with
      | isTrue h => isTrue (by rw [h])
      | isFalse h => isFalse (by intro hc; cases hc; exact h rfl)
    | .ok x, .ok y =>
      match decEq x y with
      | isTrue h => isTrue (by rw [h])
      | isFalse h => isFalse (by intro hc; cases hc; exact h rfl)
    | .error _, .ok _ => isFalse (by intro hc; cases hc)
    | .ok _, .error _ => isFalse (by intro hc; cases hc)

/-- The parse-failure messages thrown by `parseDateString`. -/
inductive ParseError where
  | malformedInput
  | invalidTime
  | invalidMonth
  | invalidDay
  | unknownTimezone
deriving DecidableEq, Repr

/-- The object returned by `parseDateString`; a `NaN` day or year (the code
never guards against them) is `none`. -/
structure ParsedDate where
  year : Option Int
  month : Int
  day : Option Int
  hour : Int
  minute : Int
  timezone : JStr
  originalString : JStr
deriving DecidableEq, Repr

/-- Case-insensitive match of the `am|pm` alternative at the head of the
list; returns the matched characters and the remainder. -/
def ampmAt : JStr → Option (JStr × JStr)
  | a :: b :: rest =>
    if (lowerChar a = 'a' || lowerChar a = 'p') && lowerChar b = 'm'
    then some ([a, b], rest) else none
  | _ => none

/-- Continue the time regex after the hour digits: a colon, exactly two
digits, then the am/pm marker. -/
def timeTail (hds : JStr) : JStr → Option (JStr × JStr × JStr)
  | ':' :: m1 :: m2 :: rest =>
    if m1.isDigit && m2.isDigit then
      match ampmAt rest with
      | some (mk, _) => some (hds, [m1, m2], mk)
      | none => none
    else none
  | _ => none

/-- Attempt the regex `(\d{1,2}):(\d{2})(am|pm)` (case-insensitive marker) at
the head of the list, with the greedy-then-backtrack behaviour of `\d{1,2}`. -/
def tryTimeAt : JStr → Option (JStr × JStr × JStr)
  | [] => none
  | c1 :: rest1 =>
    if c1.isDigit then
      match rest1 with
      | c2 :: rest2 =>
        if c2.isDigit then
          match timeTail [c1, c2] rest2 with
          | some g => some g
          | none => timeTail [c1] rest1
        else timeTail [c1] rest1
      | [] => none
    else none

/-- Model of `timeString.match(/(\d{1,2}):(\d{2})(am|pm)/i)`: the leftmost
match anywhere in the string (the regex is unanchored). -/
def regexMatchTime : JStr → Option (JStr × JStr × JStr)
  | [] => none
  | c :: rest =>
    match tryTimeAt (c :: rest) with
    | some g => some g
    | none => regexMatchTime rest

/-- The day range test `day < 1 || day > 31` of `parseDateString`: on a `NaN`
day both comparisons are false, so the test passes. -/
def dayOutOfRange (day : Option Int) : Bool :=
  match day with
  | some d => d < 1 || d > 31
  | none => false

/-- The 12-to-24-hour conversion of `parseDateString`: add 12 when the marker
is pm and the hour is not 12; make a 12 am hour 0. -/
def to24 (hour0 : Int) (mkLower : JStr) : Int :=
  if mkLower = "pm".data && hour0 ≠ 12 then hour0 + 12
  else if mkLower = "am".data && hour0 = 12 then 0
  else hour0

/-- `DateManipulator.parseDateString`.  The validation order follows the
source: token count, time regex, month name, day range, timezone.  A day
whose `parseInt` is `NaN` passes the range test (both comparisons are false
on `NaN`), and the year is never validated at all. -/
def parseDateString (dateString : JStr) : Except ParseError ParsedDate :=
  let parts := jsSplitWs (jsTrim dateString)
  if parts.length < 5 then .error .malformedInput
  else
    let monthName := (parts.get? 0).getD []
    let day := jsParseInt ((parts.get? 1).getD [])
    let year := jsParseInt ((parts.get? 2).getD [])
    let timeString := (parts.get? 3).getD []
    let timezone := (parts.get? 4).getD []
    match regexMatchTime timeString with
    | none => .error .invalidTime
    | some (hds, mds, mk) =>
      let hour0 : Int := (jsParseInt hds).getD 0
      let minute : Int := (jsParseInt mds).getD 0
      let hour : Int := to24 hour0 (mk.map lowerChar)
      if ¬ MONTHS.contains monthName then .error .invalidMonth
      else if dayOutOfRange day then
        .error .invalidDay
      else if ¬ SUPPORTED_TIMEZONES.contains timezone then .error .unknownTimezone
      else .ok { year := year, month := (MONTHS.indexOf monthName : Nat),
                 day := day, hour := hour, minute := minute,
                 timezone := timezone, originalString := dateString }

/-- The expression `new Date(year, month, day, hour, minute)` applied to the
destructured fields of a parsed date, as written in `addHours` and
`convertTimezone`. -/
def dateOf (p : ParsedDate) : Option Int :=
  jsMakeDate p.year (some p.month) p.day (some p.hour) (some p.minute)

/-- The object returned by `DateManipulator.addHours`: it wraps the new
`Date` rather than returning another `ParsedDate`. -/
structure AddHoursResult where
  original : ParsedDate
  newDate : Option Int
  hoursAdded : Int
  timezone : JStr
deriving DecidableEq, Repr

/-- `DateManipulator.addHours`. -/
def addHours (parsedDate : ParsedDate) (hoursToAdd : Int) : AddHoursResult :=
  { original := parsedDate
    newDate := jsSetHoursAdd (dateOf parsedDate) (some hoursToAdd)
    hoursAdded := hoursToAdd
    timezone := parsedDate.timezone }

/-- The indexing `MONTHS[m]`: `undefined` (rendered later as the string
`undefined`) when the index is not an integer in range. -/
def monthNameAt (m : Option Int) : JStr :=
  match m with
  | some i => if 0 ≤ i then (MONTHS.get? i.toNat).getD "undefined".data
              else "undefined".data
  | none => "undefined".data

/-- The 12-hour rendering of `formatDate`: value of the hour variable after
the if/else chain together with the am/pm marker; a `NaN` hour takes none of
the branches. -/
def hour12Render (h : Option Int) : JStr × JStr :=
  match h with
  | none => ("NaN".data, "am".data)
  | some hv =>
    if hv = 0 then (renderInt 12, "am".data)
    else if hv = 12 then (renderInt 12, "pm".data)
    else if hv > 12 then (renderInt (hv - 12), "pm".data)
    else (renderInt hv, "am".data)

/-- `DateManipulator.formatDate`. -/
def formatDate (date : Option Int) (timezone : JStr) : JStr :=
  let month := monthNameAt (getMonth date)
  let day := renderOptInt (getDate date)
  let year := renderOptInt (getFullYear date)
  let hm := hour12Render (getHours date)
  let minutePadded := padStart2 (renderOptInt (getMinutes date))
  month ++ " ".data ++ day ++ " ".data ++ year ++ " ".data ++
    hm.1 ++ ":".data ++ minutePadded ++ hm.2 ++ " ".data ++ timezone

/-- `DateManipulator.convertTimezone(dateString, sourceTz, targetTz)`: note
that the source offset comes from the `sourceTz` argument, not from the
timezone token of the parsed string, and that an `undefined` offset makes the
hour difference `NaN` rather than raising an error. -/
def convertTimezone (dateString sourceTz targetTz : JStr) :
    Except ParseError JStr :=
  match parseDateString dateString with
  | .error e => .error e
  | .ok parsed =>
    let sourceOffset := TIMEZONE_OFFSETS sourceTz
    let targetOffset := TIMEZONE_OFFSETS targetTz
    let hourDiff : Option Int :=
      match targetOffset, sourceOffset with
      | some a, some b => some (a - b)
      | _, _ => none
    .ok (formatDate (jsSetHoursAdd (dateOf parsed) hourDiff) targetTz)

/-! ### The standalone add12Hours (src/unnamed/part_001) -/

/-- `getMonthIndex` from the standalone file: `indexOf` yields -1 for an
unknown month name. -/
def getMonthIndex (monthName : JStr) : Int :=
  let months := ["January".data, "February".data, "March".data, "April".data,
    "May".data, "June".data, "July".data, "August".data, "September".data,
    "October".data, "November".data, "December".data]
  if months.contains monthName then (months.indexOf monthName : Nat) else -1

/-- `getMonthName` from the standalone file; an out-of-range or `NaN` index
reads `undefined` from the array. -/
def getMonthName (monthIndex : Option Int) : JStr :=
  let months := ["January".data, "February".data, "March".data, "April".data,
    "May".data, "June".data, "July".data, "August".data, "September".data,
    "October".data, "November".data, "December".data]
  match monthIndex with
  | some i => if 0 ≤ i then (months.get? i.toNat).getD "undefined".data
              else "undefined".data
  | none => "undefined".data

/-- `timeParts[1].replace(/[apm]/g, "")`: removes every lower-case a, p, m. -/
def replaceApm (l : JStr) : JStr :=
  l.filter (fun c => ¬ (c = 'a' || c = 'p' || c = 'm'))

/-- The standalone `add12Hours`.  It does not trim, validates nothing, and
crashes (`none`) when token 3 is missing (`undefined.split`) or contains no
colon (`undefined.replace`).  A missing token read coerces to the string
`undefined` where a string is expected. -/
def add12Hours (dateString : JStr) : Option JStr :=
  let parts := jsSplitWs dateString
  let monthName := (parts.get? 0).getD "undefined".data
  let day := jsParseInt ((parts.get? 1).getD "undefined".data)
  let year := jsParseInt ((parts.get? 2).getD "undefined".data)
  let timezone := (parts.get? 4).getD "undefined".data
  match parts.get? 3 with
  | none => none
  | some timeString =>
    let timeParts := splitColon timeString
    match timeParts.get? 1 with
    | none => none
    | some tp1 =>
      let hour0 := jsParseInt ((timeParts.get? 0).getD [])
      let minute := jsParseInt (replaceApm tp1)
      let ampm := if hasSub tp1 "pm".data then "pm".data else "am".data
      let hour : Option Int :=
        if ampm = "pm".data && hour0 ≠ some 12 then hour0.map (· + 12)
        else if ampm = "am".data && hour0 = some 12 then some 0
        else hour0
      let date := jsMakeDate year (some (getMonthIndex monthName)) day hour minute
      let date12 := jsSetHoursAdd date (some 12)
      let resultMonth := getMonthName (getMonth date12)
      let resultDay := renderOptInt (getDate date12)
      let resultYear := renderOptInt (getFullYear date12)
      let hm := hour12Render (getHours date12)
      let resultMinute := padStart2 (renderOptInt (getMinutes date12))
      some (resultMonth ++ " ".data ++ resultDay ++ " ".data ++ resultYear ++
        " ".data ++ hm.1 ++ ":".data ++ resultMinute ++ hm.2 ++ " ".data ++
        timezone)

/-- Shorthand for the year getter body on a raw time value. -/
def yearOfT (t : Int) : Int := yearFromDay (jsDay t)

/-- Shorthand for the month getter body on a raw time value. -/
def monthOfT (t : Int) : Int :=
  monthFromDoy (inLeapYear (yearOfT t)) (dayWithinYear (jsDay t))

/-- Shorthand for the day-of-month getter body on a raw time value. -/
def dateOfT (t : Int) : Int :=
  dayWithinYear (jsDay t) - monthStart (inLeapYear (yearOfT t)) (monthOfT t) + 1

/-- A usable whitespace-separated token: nonempty and free of whitespace. -/
def wsFreeTok (tok : JStr) : Prop :=
  tok ≠ [] ∧ ∀ c ∈ tok, isWsChar c = false

/-- The civil reading of a date value: the tuple of its getter fields. -/
def civilOf (t : Option Int) :
    Option Int × Option Int × Option Int × Option Int × Option Int :=
  (getFullYear t, getMonth t, getDate t, getHours t, getMinutes t)

/-! ### Calendar lemmas for the Date core -/

theorem daysInYear_bounds (y : Int) : 365 ≤ daysInYear y ∧ daysInYear y ≤ 366 := by
  simp only [daysInYear]
  split_ifs <;> omega

theorem dayFromYear_succ (y : Int) :
    dayFromYear (y + 1) = dayFromYear y + daysInYear y := by
  simp only [dayFromYear, daysInYear]
  split_ifs <;> omega

theorem dayFromYear_mono {a b : Int} (h : a < b) :
    dayFromYear a + daysInYear a ≤ dayFromYear b := by
  refine @Int.le_induction
    (fun z => dayFromYear a + daysInYear a ≤ dayFromYear z) (a + 1) ?_ ?_ b h
  · show dayFromYear a + daysInYear a ≤ dayFromYear (a + 1)
    rw [dayFromYear_succ]
  · intro n hn ih
    have h2 := dayFromYear_succ n
    have h3 := daysInYear_bounds n
    omega

theorem yearFromDay_bracket (d : Int) :
    dayFromYear (1970 + 400 * d / 146097 - 1) ≤ d ∧
      d < dayFromYear (1970 + 400 * d / 146097 + 2) := by
  simp only [dayFromYear]
  omega

theorem yearFromDay_spec (d : Int) :
    dayFromYear (yearFromDay d) ≤ d ∧
      d < dayFromYear (yearFromDay d) + daysInYear (yearFromDay d) := by
  have hb := yearFromDay_bracket d
  set q : Int := 400 * d / 146097 with hq
  have s0 : dayFromYear (1970 + q) =
      dayFromYear (1970 + q - 1) + daysInYear (1970 + q - 1) := by
    have h := dayFromYear_succ (1970 + q - 1)
    rw [sub_add_cancel] at h
    exact h
  have s1 := dayFromYear_succ (1970 + q)
  have s2 : dayFromYear (1970 + q + 2) =
      dayFromYear (1970 + q + 1) + daysInYear (1970 + q + 1) := by
    have h := dayFromYear_succ (1970 + q + 1)
    rw [show 1970 + q + 1 + 1 = 1970 + q + 2 by ring] at h
    exact h
  simp only [yearFromDay]
  rw [← hq]
  split_ifs with h1 h2
  · exact ⟨by omega, by omega⟩
  · exact ⟨by omega, by omega⟩
  · exact ⟨by omega, by omega⟩

theorem yearFromDay_unique {y d : Int} (h1 : dayFromYear y ≤ d)
    (h2 : d < dayFromYear y + daysInYear y) : yearFromDay d = y := by
  have spec := yearFromDay_spec d
  rcases lt_trichotomy (yearFromDay d) y with hlt | heq | hgt
  · have hm := dayFromYear_mono hlt
    omega
  · exact heq
  · have hm := dayFromYear_mono hgt
    omega

theorem daysInYear_eq (y : Int) :
    daysInYear y = if inLeapYear y then 366 else 365 := by
  have hb := daysInYear_bounds y
  simp only [inLeapYear]
  split_ifs with h
  · simpa using h
  · simp at h
    omega

theorem monthLen_pos (leap : Bool) {m : Int} (h0 : 0 ≤ m) (h1 : m < 12) :
    1 ≤ monthLen leap m ∧ monthLen leap m ≤ 31 := by
  interval_cases m <;> cases leap <;> decide

theorem monthStart_succ (leap : Bool) {m : Int} (h0 : 0 ≤ m) (h1 : m < 11) :
    monthStart leap (m + 1) = monthStart leap m + monthLen leap m := by
  interval_cases m <;> cases leap <;> decide

theorem monthStart_last (leap : Bool) :
    monthStart leap 11 + monthLen leap 11 = if leap then 366 else 365 := by
  cases leap <;> decide

theorem monthStart_bounds (leap : Bool) {m : Int} (h0 : 0 ≤ m) (h1 : m < 12) :
    0 ≤ monthStart leap m ∧ monthStart leap m ≤ 335 := by
  interval_cases m <;> cases leap <;> decide

theorem monthStart_add_le (leap : Bool) {m : Int} (h0 : 0 ≤ m) (h1 : m < 12) :
    monthStart leap m + monthLen leap m ≤ (if leap then 366 else 365) := by
  interval_cases m <;> cases leap <;> decide

set_option maxHeartbeats 2000000 in
theorem monthFromDoy_spec (leap : Bool) {doy : Int} (h0 : 0 ≤ doy)
    (h1 : doy < (if leap then 366 else 365)) :
    0 ≤ monthFromDoy leap doy ∧ monthFromDoy leap doy < 12 ∧
      monthStart leap (monthFromDoy leap doy) ≤ doy ∧
      doy < monthStart leap (monthFromDoy leap doy) +
        monthLen leap (monthFromDoy leap doy) := by
  cases leap <;> norm_num at h1 <;>
    unfold monthFromDoy <;> norm_num <;> split_ifs <;>
    unfold monthStart monthLen <;> norm_num <;> omega

set_option maxHeartbeats 1000000 in
theorem monthStart_mono (leap : Bool) {a b : Int} (h0 : 0 ≤ a) (h1 : a < b)
    (h2 : b < 12) : monthStart leap a + monthLen leap a ≤ monthStart leap b := by
  have h3 : a < 11 := by omega
  have h4 : 1 ≤ b := by omega
  interval_cases a <;> interval_cases b <;> cases leap <;> decide

theorem month_unique (leap : Bool) {m1 m2 doy : Int}
    (ha0 : 0 ≤ m1) (ha1 : m1 < 12) (hb0 : 0 ≤ m2) (hb1 : m2 < 12)
    (r1 : monthStart leap m1 ≤ doy)
    (r2 : doy < monthStart leap m1 + monthLen leap m1)
    (r3 : monthStart leap m2 ≤ doy)
    (r4 : doy < monthStart leap m2 + monthLen leap m2) :
    m1 = m2 := by
  rcases lt_trichotomy m1 m2 with hlt | heq | hgt
  · have := monthStart_mono leap ha0 hlt hb1
    omega
  · exact heq
  · have := monthStart_mono leap hb0 hgt ha1
    omega

theorem monthFromDoy_encode (leap : Bool) {m d1 : Int} (h0 : 0 ≤ m) (h1 : m < 12)
    (hd : 1 ≤ d1) (hd2 : d1 ≤ monthLen leap m)
    (hdy : monthStart leap m + (d1 - 1) < (if leap then 366 else 365)) :
    monthFromDoy leap (monthStart leap m + (d1 - 1)) = m := by
  have hms := monthStart_bounds leap h0 h1
  have hspec := @monthFromDoy_spec leap (monthStart leap m + (d1 - 1))
    (by omega) hdy
  exact month_unique leap hspec.1 hspec.2.1 h0 h1 hspec.2.2.1 hspec.2.2.2
    (by omega) (by omega)

theorem makeDay_std {y m d1 : Int} (h0 : 0 ≤ m) (h1 : m < 12) :
    makeDay y m d1 = dayFromYear y + monthStart (inLeapYear y) m + (d1 - 1) := by
  have e1 : m / 12 = 0 := by omega
  have e2 : m % 12 = m := by omega
  simp [makeDay, e1, e2]

theorem getFullYear_some (t : Int) : getFullYear (some t) = some (yearOfT t) := rfl

theorem getMonth_some (t : Int) : getMonth (some t) = some (monthOfT t) := rfl

theorem getDate_some (t : Int) : getDate (some t) = some (dateOfT t) := rfl

theorem getHours_some (t : Int) : getHours (some t) = some (t / 60 % 24) := rfl

theorem getMinutes_some (t : Int) : getMinutes (some t) = some (t % 60) := rfl

theorem decode_encode {y m d1 h mi : Int} (hm0 : 0 ≤ m) (hm1 : m < 12)
    (hd1 : 1 ≤ d1) (hd2 : d1 ≤ monthLen (inLeapYear y) m)
    (hh : 0 ≤ h) (hh1 : h < 24) (hmi : 0 ≤ mi) (hmi1 : mi < 60) :
    yearOfT (makeDay y m d1 * 1440 + h * 60 + mi) = y ∧
      monthOfT (makeDay y m d1 * 1440 + h * 60 + mi) = m ∧
      dateOfT (makeDay y m d1 * 1440 + h * 60 + mi) = d1 ∧
      (makeDay y m d1 * 1440 + h * 60 + mi) / 60 % 24 = h ∧
      (makeDay y m d1 * 1440 + h * 60 + mi) % 60 = mi := by
  have hmd := @makeDay_std y m d1 hm0 hm1
  have hms := monthStart_bounds (inLeapYear y) hm0 hm1
  have hml := monthLen_pos (inLeapYear y) hm0 hm1
  have hadd := monthStart_add_le (inLeapYear y) hm0 hm1
  have hdy := daysInYear_eq y
  have hday : jsDay (makeDay y m d1 * 1440 + h * 60 + mi) = makeDay y m d1 := by
    simp only [jsDay]
    omega
  have hyear : yearFromDay (makeDay y m d1) = y := by
    apply yearFromDay_unique <;> omega
  have hdoy : dayWithinYear (makeDay y m d1) = monthStart (inLeapYear y) m + (d1 - 1) := by
    simp only [dayWithinYear, hyear]
    omega
  refine ⟨?_, ?_, ?_, by omega, by omega⟩
  · simp only [yearOfT, hday, hyear]
  · simp only [monthOfT, yearOfT, hday, hyear, hdoy]
    exact monthFromDoy_encode (inLeapYear y) hm0 hm1 hd1 hd2 (by omega)
  · simp only [dateOfT, monthOfT, yearOfT, hday, hyear, hdoy]
    rw [monthFromDoy_encode (inLeapYear y) hm0 hm1 hd1 hd2 (by omega)]
    omega

theorem decode_ranges (t : Int) :
    0 ≤ monthOfT t ∧ monthOfT t < 12 ∧ 1 ≤ dateOfT t ∧
      dateOfT t ≤ monthLen (inLeapYear (yearOfT t)) (monthOfT t) := by
  have hspec := yearFromDay_spec (jsDay t)
  have hdy := daysInYear_eq (yearFromDay (jsDay t))
  have hdoy0 : 0 ≤ dayWithinYear (jsDay t) := by
    simp only [dayWithinYear]
    omega
  have hdoy1 : dayWithinYear (jsDay t) <
      (if inLeapYear (yearFromDay (jsDay t)) then 366 else 365) := by
    simp only [dayWithinYear]
    omega
  have hm := monthFromDoy_spec (inLeapYear (yearFromDay (jsDay t))) hdoy0 hdoy1
  simp only [monthOfT, dateOfT, yearOfT]
  refine ⟨hm.1, hm.2.1, by omega, by omega⟩

theorem encode_decode (t : Int) :
    makeDay (yearOfT t) (monthOfT t) (dateOfT t) * 1440 +
      (t / 60 % 24) * 60 + t % 60 = t := by
  have hr := decode_ranges t
  have hspec := yearFromDay_spec (jsDay t)
  have hmd := @makeDay_std (yearOfT t) (monthOfT t) (dateOfT t) hr.1 hr.2.1
  have hdoy0 : 0 ≤ dayWithinYear (jsDay t) := by
    simp only [dayWithinYear]
    omega
  have hdoy1 : dayWithinYear (jsDay t) <
      (if inLeapYear (yearFromDay (jsDay t)) then 366 else 365) := by
    have hdy := daysInYear_eq (yearFromDay (jsDay t))
    simp only [dayWithinYear]
    omega
  have hm := monthFromDoy_spec (inLeapYear (yearFromDay (jsDay t))) hdoy0 hdoy1
  have hD : makeDay (yearOfT t) (monthOfT t) (dateOfT t) = jsDay t := by
    rw [hmd]
    simp only [dateOfT, monthOfT, yearOfT] at *
    simp only [dayWithinYear] at *
    omega
  rw [hD]
  simp only [jsDay]
  omega

/-! ### Digit rendering and parsing lemmas -/

theorem digitChar_isDigit {d : Nat} (h : d < 10) :
    (Nat.digitChar d).isDigit = true := by
  interval_cases d <;> decide

theorem digitChar_val {d : Nat} (h : d < 10) :
    ((Nat.digitChar d).toNat : Int) - 48 = (d : Int) := by
  interval_cases d <;> decide

theorem isDigit_not_ws {c : Char} (h : c.isDigit = true) : isWsChar c = false := by
  unfold isWsChar
  by_contra hc
  simp only [Bool.not_eq_false, Bool.or_eq_true, decide_eq_true_eq] at hc
  rcases hc with ((((rfl | rfl) | rfl) | rfl) | rfl) | rfl <;> simp at h

theorem isDigit_ne_sign {c : Char} (h : c.isDigit = true) :
    c ≠ '-' ∧ c ≠ '+' ∧ c ≠ 'x' ∧ c ≠ 'X' := by
  refine ⟨?_, ?_, ?_, ?_⟩ <;> rintro rfl <;> simp at h

theorem renderNatFuel_acc (fuel : Nat) : ∀ (n : Nat) (acc : JStr),
    renderNatFuel fuel n acc = renderNatFuel fuel n [] ++ acc := by
  induction fuel with
  | zero => intro n acc; simp [renderNatFuel]
  | succ f ih =>
    intro n acc
    simp only [renderNatFuel]
    split_ifs
    · simp
    · rw [ih (n / 10) (Nat.digitChar (n % 10) :: acc),
        ih (n / 10) [Nat.digitChar (n % 10)]]
      simp

theorem renderNatFuel_fuel : ∀ {n f1 f2 : Nat}, n < f1 → n < f2 →
    renderNatFuel f1 n [] = renderNatFuel f2 n [] := by
  intro n
  induction n using Nat.strong_induction_on with
  | _ n ih =>
    intro f1 f2 h1 h2
    match f1, h1 with
    | fa + 1, _ =>
      match f2, h2 with
      | fb + 1, _ =>
        simp only [renderNatFuel]
        split_ifs with hn
        · rfl
        · rw [renderNatFuel_acc fa, renderNatFuel_acc fb]
          rw [show renderNatFuel fa (n / 10) [] = renderNatFuel fb (n / 10) [] from
            ih (n / 10) (by omega) (by omega) (by omega)]

theorem renderNatFuel_step {f n : Nat} (h : ¬ n < 10) :
    renderNatFuel (f + 1) n [] =
      renderNatFuel f (n / 10) [] ++ [Nat.digitChar (n % 10)] := by
  simp only [renderNatFuel, if_neg h]
  exact renderNatFuel_acc f (n / 10) [Nat.digitChar (n % 10)]

theorem renderNat_spec (n : Nat) :
    renderNat n ≠ [] ∧ (∀ c ∈ renderNat n, c.isDigit = true) ∧
      digitsVal (renderNat n) = (n : Int) := by
  induction n using Nat.strong_induction_on with
  | _ n ih =>
    by_cases h : n < 10
    · have hr1 : renderNat n = [Nat.digitChar n] := by
        simp [renderNat, renderNatFuel, h]
      rw [hr1]
      refine ⟨by simp, by simpa using digitChar_isDigit h, ?_⟩
      simp [digitsVal]
      have := digitChar_val h
      omega
    · have hstep : renderNat n = renderNat (n / 10) ++ [Nat.digitChar (n % 10)] := by
        show renderNatFuel (n + 1) n [] = _
        rw [renderNatFuel_step h]
        congr 1
        exact renderNatFuel_fuel (by omega) (by omega)
      have ihd := ih (n / 10) (by omega)
      rw [hstep]
      refine ⟨by simp, ?_, ?_⟩
      · intro c hc
        rcases List.mem_append.mp hc with hc1 | hc2
        · exact ihd.2.1 c hc1
        · simp at hc2
          subst hc2
          exact digitChar_isDigit (by omega)
      · have happ : digitsVal (renderNat (n / 10) ++ [Nat.digitChar (n % 10)]) =
            digitsVal (renderNat (n / 10)) * 10 +
              (((Nat.digitChar (n % 10)).toNat : Int) - 48) := by
          simp [digitsVal, List.foldl_append]
        rw [happ, ihd.2.2, digitChar_val (by omega)]
        omega

theorem isDigit_toNat {c : Char} (h : c.isDigit = true) :
    48 ≤ c.toNat ∧ c.toNat ≤ 57 := by
  simp [Char.isDigit, Char.le_def] at h
  exact h

theorem digitsVal_nonneg {l : JStr} (h : ∀ c ∈ l, c.isDigit = true) :
    0 ≤ digitsVal l := by
  suffices hgen : ∀ a : Int, 0 ≤ a →
      0 ≤ l.foldl (fun x c => x * 10 + ((c.toNat : Int) - 48)) a by
    exact hgen 0 le_rfl
  induction l with
  | nil => intro a ha; simpa using ha
  | cons c t iht =>
    intro a ha
    simp only [List.foldl_cons]
    have hc48 := isDigit_toNat (h c (by simp))
    refine iht (fun x hx => h x (by simp [hx])) _ (by omega)

theorem hexHead_digits {l : JStr} (h : ∀ c ∈ l, c.isDigit = true) :
    hexHead l = false := by
  match l with
  | [] => rfl
  | [c] => rfl
  | c0 :: c1 :: r =>
    have hc1 := h c1 (by simp)
    have hs := isDigit_ne_sign hc1
    simp [hexHead, hs.2.2.1, hs.2.2.2]

theorem jsParseInt_digits {l : JStr} (h0 : l ≠ [])
    (h : ∀ c ∈ l, c.isDigit = true) : jsParseInt l = some (digitsVal l) := by
  match l, h0 with
  | c :: rest, _ =>
    have hc := h c (by simp)
    have hws := isDigit_not_ws hc
    have hsign := isDigit_ne_sign hc
    have hhex := hexHead_digits h
    have htake : (c :: rest).takeWhile (fun x => x.isDigit) = c :: rest :=
      List.takeWhile_eq_self_iff.mpr h
    simp [jsParseInt, List.dropWhile_cons, hws, hsign.1, hsign.2.1, hhex, htake]

theorem jsParseInt_neg_digits {l : JStr} (h0 : l ≠ [])
    (h : ∀ c ∈ l, c.isDigit = true) :
    jsParseInt ('-' :: l) = some (-(digitsVal l)) := by
  match l, h0 with
  | c :: rest, _ =>
    have hhex := hexHead_digits h
    have htake : (c :: rest).takeWhile (fun x => x.isDigit) = c :: rest :=
      List.takeWhile_eq_self_iff.mpr h
    have hwsm : isWsChar '-' = false := by decide
    simp [jsParseInt, List.dropWhile_cons, hwsm, hhex, htake]

theorem jsParseInt_renderInt (v : Int) : jsParseInt (renderInt v) = some v := by
  by_cases hv : v < 0
  · have hr := renderNat_spec v.natAbs
    simp only [renderInt, if_pos hv]
    rw [jsParseInt_neg_digits hr.1 hr.2.1, hr.2.2]
    congr 1
    omega
  · simp only [renderInt, if_neg hv]
    have hr := renderNat_spec v.toNat
    rw [jsParseInt_digits hr.1 hr.2.1, hr.2.2]
    congr 1
    omega

theorem renderNat_one {n : Nat} (h : n < 10) :
    renderNat n = [Nat.digitChar n] := by
  simp [renderNat, renderNatFuel, h]

theorem renderNat_two {n : Nat} (h10 : 10 ≤ n) (h99 : n < 100) :
    renderNat n = [Nat.digitChar (n / 10), Nat.digitChar (n % 10)] := by
  show renderNatFuel (n + 1) n [] = _
  rw [renderNatFuel_step (by omega)]
  rw [renderNatFuel_fuel (by omega : n / 10 < n) (by omega : n / 10 < n / 10 + 1)]
  have h1 : renderNatFuel (n / 10 + 1) (n / 10) [] = [Nat.digitChar (n / 10)] :=
    renderNat_one (by omega : n / 10 < 10)
  rw [h1]
  rfl

/-! ### Whitespace splitting and trimming lemmas -/

theorem splitWsM_app {tok : JStr} (hw : ∀ c ∈ tok, isWsChar c = false) :
    ∀ (rest cur : JStr), splitWsM (tok ++ rest) cur false =
      splitWsM rest (tok.reverse ++ cur) false := by
  induction tok with
  | nil => intro rest cur; simp
  | cons c t iht =>
    intro rest cur
    have hc := hw c (by simp)
    simp only [List.cons_append, splitWsM, hc, Bool.false_eq_true, if_false,
      List.append_eq]
    rw [iht (fun x hx => hw x (by simp [hx])) rest (c :: cur)]
    simp

theorem splitWsM_space (rest cur : JStr) :
    splitWsM (' ' :: rest) cur false = cur.reverse :: splitWsM rest [] true := by
  have hws : isWsChar ' ' = true := by decide
  simp [splitWsM, hws]

theorem splitWsM_resume {c : Char} (hc : isWsChar c = false) (rest : JStr) :
    splitWsM (c :: rest) [] true = splitWsM rest [c] false := by
  simp [splitWsM, hc]

theorem splitWs_token_then {tok rest : JStr} (h : wsFreeTok tok) (cur : JStr) :
    splitWsM (tok ++ ' ' :: rest) cur false =
      (cur.reverse ++ tok) :: splitWsM rest [] true := by
  rw [splitWsM_app h.2, splitWsM_space]
  simp

theorem splitWs_mid {tok rest : JStr} (h : wsFreeTok tok) :
    splitWsM (tok ++ rest) [] true = splitWsM rest tok.reverse false := by
  match tok, h.1 with
  | c :: t, _ =>
    rw [List.cons_append, splitWsM_resume (h.2 c (by simp))]
    rw [splitWsM_app (fun x hx => h.2 x (by simp [hx]))]
    simp

theorem splitWs_mid_then {tok rest : JStr} (h : wsFreeTok tok) :
    splitWsM (tok ++ ' ' :: rest) [] true = tok :: splitWsM rest [] true := by
  rw [splitWs_mid h, splitWsM_space]
  simp

theorem splitWs_mid_end {tok : JStr} (h : wsFreeTok tok) :
    splitWsM tok [] true = [tok] := by
  match tok, h.1 with
  | c :: t, _ =>
    rw [splitWsM_resume (h.2 c (by simp))]
    have h2 := splitWsM_app (fun x hx => h.2 x (List.mem_cons_of_mem c hx)) [] [c]
    rw [List.append_nil] at h2
    rw [h2]
    simp [splitWsM]

theorem jsSplitWs_five {t1 t2 t3 t4 t5 : JStr}
    (h1 : wsFreeTok t1) (h2 : wsFreeTok t2) (h3 : wsFreeTok t3)
    (h4 : wsFreeTok t4) (h5 : wsFreeTok t5) :
    jsSplitWs (t1 ++ ' ' :: (t2 ++ ' ' :: (t3 ++ ' ' :: (t4 ++ ' ' :: t5)))) =
      [t1, t2, t3, t4, t5] := by
  unfold jsSplitWs
  rw [splitWs_token_then h1, splitWs_mid_then h2, splitWs_mid_then h3,
    splitWs_mid_then h4, splitWs_mid_end h5]
  simp

theorem jsTrim_eq_of {l : JStr}
    (hhead : ∃ c t, l = c :: t ∧ isWsChar c = false)
    (hlast : ∃ c t, l.reverse = c :: t ∧ isWsChar c = false) : jsTrim l = l := by
  obtain ⟨c, t, rfl, hc⟩ := hhead
  obtain ⟨d, r, hr, hd⟩ := hlast
  simp only [jsTrim, List.dropWhile_cons, hc, Bool.false_eq_true, if_false]
  rw [hr]
  simp only [List.dropWhile_cons, hd, Bool.false_eq_true, if_false]
  rw [← hr]
  simp

/-! ### Regex lemmas for the time token -/

theorem ampmAt_pair {a b : Char}
    (h : (lowerChar a = 'a' ∨ lowerChar a = 'p') ∧ lowerChar b = 'm') :
    ∀ rest, ampmAt (a :: b :: rest) = some ([a, b], rest) := by
  intro rest
  rcases h.1 with ha | ha <;> simp [ampmAt, ha, h.2]

theorem regexMatch_time1 {c1 m1 m2 : Char} {mk : JStr} (h1 : c1.isDigit = true)
    (hm1 : m1.isDigit = true) (hm2 : m2.isDigit = true)
    (hab : ampmAt mk = some (mk, [])) :
    regexMatchTime (c1 :: ':' :: m1 :: m2 :: mk) = some ([c1], [m1, m2], mk) := by
  match mk, hab with
  | a :: b :: mrest, hab =>
    have hmr : mrest = [] := by
      simp only [ampmAt] at hab
      split_ifs at hab <;> simp_all
    subst hmr
    have hcolon : (':' : Char).isDigit = false := by decide
    simp [regexMatchTime, tryTimeAt, timeTail, h1, hm1, hm2, hab, hcolon]

theorem regexMatch_time2 {c1 c2 m1 m2 : Char} {mk : JStr} (h1 : c1.isDigit = true)
    (h2 : c2.isDigit = true) (hm1 : m1.isDigit = true) (hm2 : m2.isDigit = true)
    (hab : ampmAt mk = some (mk, [])) :
    regexMatchTime (c1 :: c2 :: ':' :: m1 :: m2 :: mk) =
      some ([c1, c2], [m1, m2], mk) := by
  match mk, hab with
  | a :: b :: mrest, hab =>
    have hmr : mrest = [] := by
      simp only [ampmAt] at hab
      split_ifs at hab <;> simp_all
    subst hmr
    simp [regexMatchTime, tryTimeAt, timeTail, h1, h2, hm1, hm2, hab]

/-! ### Token facts for the formatter output -/

theorem renderInt_wsFree (v : Int) : wsFreeTok (renderInt v) := by
  by_cases hv : v < 0
  · rw [renderInt, if_pos hv]
    have hr := renderNat_spec v.natAbs
    refine ⟨by simp, ?_⟩
    intro c hc
    rcases List.mem_cons.mp hc with rfl | hc2
    · decide
    · exact isDigit_not_ws (hr.2.1 c hc2)
  · rw [renderInt, if_neg hv]
    have hr := renderNat_spec v.toNat
    exact ⟨hr.1, fun c hc => isDigit_not_ws (hr.2.1 c hc)⟩

theorem jsTrim_five {t1 t2 t3 t4 t5 : JStr} (h1 : wsFreeTok t1) (h5 : wsFreeTok t5) :
    jsTrim (t1 ++ ' ' :: (t2 ++ ' ' :: (t3 ++ ' ' :: (t4 ++ ' ' :: t5)))) =
      t1 ++ ' ' :: (t2 ++ ' ' :: (t3 ++ ' ' :: (t4 ++ ' ' :: t5))) := by
  apply jsTrim_eq_of
  · match t1, h1.1 with
    | c :: r, _ =>
      exact ⟨c, r ++ ' ' :: (t2 ++ ' ' :: (t3 ++ ' ' :: (t4 ++ ' ' :: t5))),
        by simp, h1.2 c (by simp)⟩
  · match hrev : t5.reverse with
    | [] =>
      have ht5 : t5 = [] := by simpa using congrArg List.reverse hrev
      exact absurd ht5 h5.1
    | d :: srev =>
      have ht5 : t5 = srev.reverse ++ [d] := by
        have h := congrArg List.reverse hrev
        simpa using h
      have hd : isWsChar d = false := h5.2 d (by rw [ht5]; simp)
      have hshape : t1 ++ ' ' :: (t2 ++ ' ' :: (t3 ++ ' ' :: (t4 ++ ' ' :: t5))) =
          (t1 ++ ' ' :: (t2 ++ ' ' :: (t3 ++ ' ' :: (t4 ++ ' ' :: srev.reverse))))
            ++ [d] := by
        rw [ht5]
        simp
      refine ⟨d, (t1 ++ ' ' :: (t2 ++ ' ' :: (t3 ++ ' ' ::
        (t4 ++ ' ' :: srev.reverse)))).reverse, ?_, hd⟩
      rw [hshape]
      simp

theorem hourTok_facts {h : Int} (hh : 0 ≤ h) (hh1 : h < 24) :
    ∃ hds mk,
      hour12Render (some h) = (hds, mk) ∧
      (∀ c ∈ hds, c.isDigit = true) ∧
      (hds.length = 1 ∨ hds.length = 2) ∧
      mk.length = 2 ∧
      ampmAt mk = some (mk, []) ∧
      (∀ c ∈ mk, isWsChar c = false) ∧
      to24 ((jsParseInt hds).getD 0) (mk.map lowerChar) = h := by
  interval_cases h <;>
    exact ⟨_, _, rfl, by decide, by decide, by decide, by decide, by decide,
      by decide⟩

theorem minuteTok_facts {mi : Int} (hmi : 0 ≤ mi) (hmi1 : mi < 60) :
    ∃ m1c m2c, padStart2 (renderOptInt (some mi)) = [m1c, m2c] ∧
      m1c.isDigit = true ∧ m2c.isDigit = true ∧
      (jsParseInt [m1c, m2c]).getD 0 = mi := by
  by_cases h10 : mi < 10
  · have hr : renderInt mi = [Nat.digitChar mi.toNat] := by
      rw [renderInt, if_neg (by omega)]
      exact renderNat_one (by omega)
    have hdig : (Nat.digitChar mi.toNat).isDigit = true := digitChar_isDigit (by omega)
    refine ⟨'0', Nat.digitChar mi.toNat, ?_, by decide, hdig, ?_⟩
    · simp [renderOptInt, hr, padStart2]
    · have hall : ∀ c ∈ ['0', Nat.digitChar mi.toNat], c.isDigit = true := by
        intro c hc
        rcases List.mem_cons.mp hc with rfl | hc2
        · decide
        · simp at hc2
          subst hc2
          exact hdig
      rw [jsParseInt_digits (by simp) hall]
      have hval := @digitChar_val mi.toNat (by omega)
      simp [digitsVal]
      omega
  · have hr : renderInt mi = [Nat.digitChar (mi.toNat / 10),
        Nat.digitChar (mi.toNat % 10)] := by
      rw [renderInt, if_neg (by omega)]
      exact renderNat_two (by omega) (by omega)
    have hd1 : (Nat.digitChar (mi.toNat / 10)).isDigit = true :=
      digitChar_isDigit (by omega)
    have hd2 : (Nat.digitChar (mi.toNat % 10)).isDigit = true :=
      digitChar_isDigit (by omega)
    refine ⟨_, _, ?_, hd1, hd2, ?_⟩
    · simp [renderOptInt, hr, padStart2]
    · have hall : ∀ c ∈ [Nat.digitChar (mi.toNat / 10), Nat.digitChar (mi.toNat % 10)],
          c.isDigit = true := by
        intro c hc
        rcases List.mem_cons.mp hc with rfl | hc2
        · exact hd1
        · simp at hc2
          subst hc2
          exact hd2
      rw [jsParseInt_digits (by simp) hall]
      have hv1 := @digitChar_val (mi.toNat / 10) (by omega)
      have hv2 := @digitChar_val (mi.toNat % 10) (by omega)
      simp [digitsVal]
      omega

theorem months_tok {m : Int} (h0 : 0 ≤ m) (h1 : m < 12) :
    ∃ name, monthNameAt (some m) = name ∧ wsFreeTok name ∧
      MONTHS.contains name = true ∧ ((MONTHS.indexOf name : Nat) : Int) = m := by
  interval_cases m <;>
    exact ⟨_, rfl, ⟨by decide, by decide⟩, by decide, by decide⟩

theorem tz_tok {tz : JStr} (h : tz ∈ SUPPORTED_TIMEZONES) : wsFreeTok tz := by
  fin_cases h <;> exact ⟨by decide, by decide⟩

/-! ### Parsing the formatter output -/

set_option maxHeartbeats 2000000 in
theorem parse_format {t : Int} {tz : JStr}
    (htz : tz ∈ SUPPORTED_TIMEZONES)
    (hy : yearOfT t < 0 ∨ 100 ≤ yearOfT t)
    (hrange : t.natAbs ≤ 144000000000) :
    parseDateString (formatDate (some t) tz) =
      .ok { year := some (yearOfT t), month := monthOfT t,
            day := some (dateOfT t), hour := t / 60 % 24, minute := t % 60,
            timezone := tz, originalString := formatDate (some t) tz } ∧
    jsMakeDate (some (yearOfT t)) (some (monthOfT t)) (some (dateOfT t))
      (some (t / 60 % 24)) (some (t % 60)) = some t := by
  have hr := decode_ranges t
  have hh : 0 ≤ t / 60 % 24 := by omega
  have hh1 : t / 60 % 24 < 24 := by omega
  have hmi0 : 0 ≤ t % 60 := by omega
  have hmi1 : t % 60 < 60 := by omega
  obtain ⟨name, hname, hnamet, hnamec, hnamei⟩ := months_tok hr.1 hr.2.1
  obtain ⟨hds, mk, hhm, hhds, hlen, hmklen, hampm, hmkws, hto24⟩ :=
    hourTok_facts hh hh1
  obtain ⟨m1c, m2c, hpad, hm1, hm2, hmival⟩ := minuteTok_facts hmi0 hmi1
  have htzt : wsFreeTok tz := tz_tok htz
  have hdayt : wsFreeTok (renderInt (dateOfT t)) := renderInt_wsFree _
  have hyeart : wsFreeTok (renderInt (yearOfT t)) := renderInt_wsFree _
  have htimet : wsFreeTok (hds ++ ':' :: ([m1c, m2c] ++ mk)) := by
    refine ⟨by simp, ?_⟩
    intro c hc
    rcases List.mem_append.mp hc with hc1 | hc2
    · exact isDigit_not_ws (hhds c hc1)
    · rcases List.mem_cons.mp hc2 with rfl | hc3
      · decide
      · rcases List.mem_append.mp hc3 with hc4 | hc5
        · rcases List.mem_cons.mp hc4 with rfl | hc6
          · exact isDigit_not_ws hm1
          · simp at hc6
            subst hc6
            exact isDigit_not_ws hm2
        · exact hmkws c hc5
  have hsp : " ".data = [' '] := rfl
  have hco : ":".data = [':'] := rfl
  have hpad2 : padStart2 (renderInt (t % 60)) = [m1c, m2c] := hpad
  have hfmt : formatDate (some t) tz =
      name ++ ' ' :: (renderInt (dateOfT t) ++ ' ' :: (renderInt (yearOfT t) ++
        ' ' :: ((hds ++ ':' :: ([m1c, m2c] ++ mk)) ++ ' ' :: tz))) := by
    simp only [formatDate, getMonth_some, getDate_some, getFullYear_some,
      getHours_some, getMinutes_some, hname, hhm, renderOptInt, hsp, hco]
    simp [List.append_assoc, hpad2]
  have hsplit : jsSplitWs (jsTrim (formatDate (some t) tz)) =
      [name, renderInt (dateOfT t), renderInt (yearOfT t),
       hds ++ ':' :: ([m1c, m2c] ++ mk), tz] := by
    rw [hfmt, jsTrim_five hnamet htzt,
      jsSplitWs_five hnamet hdayt hyeart htimet htzt]
  have hregex : regexMatchTime (hds ++ ':' :: ([m1c, m2c] ++ mk)) =
      some (hds, [m1c, m2c], mk) := by
    rcases hlen with hl1 | hl2
    · obtain ⟨c1, rfl⟩ := List.length_eq_one.mp hl1
      simpa using regexMatch_time1 (hhds c1 (by simp)) hm1 hm2 hampm
    · obtain ⟨c1, c2, rfl⟩ := List.length_eq_two.mp hl2
      simpa using regexMatch_time2 (hhds c1 (by simp)) (hhds c2 (by simp))
        hm1 hm2 hampm
  have hd31 : 1 ≤ dateOfT t ∧ dateOfT t ≤ 31 := by
    have hml := monthLen_pos (inLeapYear (yearOfT t)) hr.1 hr.2.1
    omega
  have hdayp := jsParseInt_renderInt (dateOfT t)
  have hyearp := jsParseInt_renderInt (yearOfT t)
  have hcont : SUPPORTED_TIMEZONES.contains tz = true := by
    simpa using htz
  have hfull : fullYearOf (yearOfT t) = yearOfT t := by
    rw [fullYearOf]
    rcases hy with hy2 | hy2 <;> · rw [if_neg]
                                   simp
                                   omega
  have henc := encode_decode t
  constructor
  · obtain ⟨s, hs⟩ : ∃ s, formatDate (some t) tz = s := ⟨_, rfl⟩
    rw [hs] at hsplit ⊢
    simp only [parseDateString, hsplit]
    simp only [List.length_cons, List.length_nil, List.get?_cons_zero,
      List.get?_cons_succ, Option.getD_some, hregex]
    simp only [hdayp, hyearp, hmival, hnamec, hnamei, hto24]
    rw [if_neg (by norm_num), if_neg (by simp), if_neg (by simp [dayOutOfRange]; omega),
      if_neg (by simp; exact htz)]
  · show timeClip (makeDay (fullYearOf (yearOfT t)) (monthOfT t) (dateOfT t) * 1440 +
        (t / 60 % 24) * 60 + t % 60) = some t
    rw [hfull, henc]
    unfold timeClip
    rw [if_pos hrange]

/-! ### Parse outcomes from token shapes -/

theorem parse_tokens_ok {s m dtok ytok ttok ztok : JStr} {rest : List JStr}
    {hds mds mk : JStr}
    (hsplit : jsSplitWs (jsTrim s) = m :: dtok :: ytok :: ttok :: ztok :: rest)
    (hm : MONTHS.contains m = true)
    (ht : regexMatchTime ttok = some (hds, mds, mk))
    (hd : dayOutOfRange (jsParseInt dtok) = false)
    (hz : SUPPORTED_TIMEZONES.contains ztok = true) :
    parseDateString s =
      .ok { year := jsParseInt ytok, month := (MONTHS.indexOf m : Nat),
            day := jsParseInt dtok,
            hour := to24 ((jsParseInt hds).getD 0) (mk.map lowerChar),
            minute := (jsParseInt mds).getD 0, timezone := ztok,
            originalString := s } := by
  simp only [parseDateString, hsplit]
  simp only [List.length_cons, List.get?_cons_zero, List.get?_cons_succ,
    Option.getD_some, ht]
  rw [if_neg (by simp), if_neg (by rw [hm]; simp), if_neg (by rw [hd]; simp),
    if_neg (by rw [hz]; simp)]

theorem parse_tokens_invalidTime {s m dtok ytok ttok ztok : JStr}
    {rest : List JStr}
    (hsplit : jsSplitWs (jsTrim s) = m :: dtok :: ytok :: ttok :: ztok :: rest)
    (ht : regexMatchTime ttok = none) :
    parseDateString s = .error .invalidTime := by
  simp only [parseDateString, hsplit]
  simp only [List.length_cons, List.get?_cons_zero, List.get?_cons_succ,
    Option.getD_some, ht]
  rw [if_neg (by simp)]

theorem parse_tokens_invalidDay {s m dtok ytok ttok ztok : JStr}
    {rest : List JStr} {hds mds mk : JStr}
    (hsplit : jsSplitWs (jsTrim s) = m :: dtok :: ytok :: ttok :: ztok :: rest)
    (hm : MONTHS.contains m = true)
    (ht : regexMatchTime ttok = some (hds, mds, mk))
    (hd : dayOutOfRange (jsParseInt dtok) = true) :
    parseDateString s = .error .invalidDay := by
  simp only [parseDateString, hsplit]
  simp only [List.length_cons, List.get?_cons_zero, List.get?_cons_succ,
    Option.getD_some, ht]
  rw [if_neg (by simp), if_neg (by rw [hm]; simp), if_pos (by rw [hd])]

theorem parse_tokens_unknownTz {s m dtok ytok ttok ztok : JStr}
    {rest : List JStr} {hds mds mk : JStr}
    (hsplit : jsSplitWs (jsTrim s) = m :: dtok :: ytok :: ttok :: ztok :: rest)
    (hm : MONTHS.contains m = true)
    (ht : regexMatchTime ttok = some (hds, mds, mk))
    (hd : dayOutOfRange (jsParseInt dtok) = false)
    (hz : SUPPORTED_TIMEZONES.contains ztok = false) :
    parseDateString s = .error .unknownTimezone := by
  simp only [parseDateString, hsplit]
  simp only [List.length_cons, List.get?_cons_zero, List.get?_cons_succ,
    Option.getD_some, ht]
  rw [if_neg (by simp), if_neg (by rw [hm]; simp), if_neg (by rw [hd]; simp),
    if_pos (by rw [hz]; simp)]

/-! ### Range bound for the clip -/

theorem dayFromYear_bound {y : Int} (h1 : -110000 ≤ y) (h2 : y ≤ 110000) :
    -41000000 ≤ dayFromYear y ∧ dayFromYear y ≤ 41000000 := by
  unfold dayFromYear
  omega

theorem makeDay_bound {y m d : Int} (h1 : -110000 ≤ y) (h2 : y ≤ 110000)
    (hm0 : 0 ≤ m) (hm1 : m < 12) (hd0 : -40 ≤ d) (hd1 : d ≤ 40) :
    -41001000 ≤ makeDay y m d ∧ makeDay y m d ≤ 41001000 := by
  rw [@makeDay_std y m d hm0 hm1]
  have hb := dayFromYear_bound h1 h2
  have hms := monthStart_bounds (inLeapYear y) hm0 hm1
  omega

/-! ### Claim theorems -/

/-- C3, counterexample: the round trip is not exact on every canonical string.
The formatter output for the civil value March 1 of year 50, 13:00 EST is
"March 1 50 1:00pm EST"; parsing it back and re-formatting yields
"March 1 1950 1:00pm EST", because the Date constructor maps two-digit years
to 1900 + year. -/
theorem C3_counterexample :
    formatDate (timeClip (makeDay 50 2 1 * 1440 + 13 * 60)) "EST".data =
      "March 1 50 1:00pm EST".data ∧
    (parseDateString "March 1 50 1:00pm EST".data).map
      (fun p => formatDate (dateOf p) p.timezone) =
      .ok "March 1 1950 1:00pm EST".data ∧
    "March 1 1950 1:00pm EST".data ≠ "March 1 50 1:00pm EST".data := by
  refine ⟨by decide, by decide, by decide⟩

/-- C3, amended: every input whose five tokens have the grammar shapes parses
successfully, and for every valid date value whose year is not in 0..99 the
string printed by formatDate parses back to exactly that date value, so
re-formatting reproduces the string exactly. -/
theorem C3_amended :
    (∀ (s m dtok ytok ttok ztok : JStr) (rest : List JStr) (hds mds mk : JStr),
      jsSplitWs (jsTrim s) = m :: dtok :: ytok :: ttok :: ztok :: rest →
      MONTHS.contains m = true →
      regexMatchTime ttok = some (hds, mds, mk) →
      dayOutOfRange (jsParseInt dtok) = false →
      SUPPORTED_TIMEZONES.contains ztok = true →
      ∃ p, parseDateString s = Except.ok p) ∧
    (∀ (t : Int) (tz : JStr), tz ∈ SUPPORTED_TIMEZONES →
      (yearOfT t < 0 ∨ 100 ≤ yearOfT t) → t.natAbs ≤ 144000000000 →
      ∃ p, parseDateString (formatDate (some t) tz) = Except.ok p ∧
        dateOf p = some t ∧
        formatDate (dateOf p) p.timezone = formatDate (some t) tz) := by
  constructor
  · intro s m dtok ytok ttok ztok rest hds mds mk hsplit hm ht hd hz
    exact ⟨_, parse_tokens_ok hsplit hm ht hd hz⟩
  · intro t tz htz hy hr
    obtain ⟨h1, h2⟩ := parse_format htz hy hr
    have h2d : dateOf { year := some (yearOfT t), month := monthOfT t,
                        day := some (dateOfT t), hour := t / 60 % 24,
                        minute := t % 60, timezone := tz,
                        originalString := formatDate (some t) tz } = some t := h2
    refine ⟨_, h1, h2d, ?_⟩
    rw [h2d]

/-- C3, witness for the amended round trip at the date value of
February 29 2004, 21:15 EST. -/
theorem C3_witness :
    ∃ p, parseDateString (formatDate (some 17968875) "EST".data) = Except.ok p ∧
      dateOf p = some 17968875 ∧
      formatDate (dateOf p) p.timezone = formatDate (some 17968875) "EST".data :=
  C3_amended.2 17968875 "EST".data (by decide) (Or.inr (by decide)) (by decide)

/-- C4, counterexample: convertTimezone takes the source offset from its
separate sourceTz argument, not from the timezone token of the parsed string.
Converting "March 6 2009 7:30pm EST" with sourceTz UTC and target PST yields
11:30am, not the 4:30pm that the claimed delta from the EST label demands. -/
theorem C4_counterexample :
    convertTimezone "March 6 2009 7:30pm EST".data "UTC".data "PST".data =
      .ok "March 6 2009 11:30am PST".data ∧
    "March 6 2009 11:30am PST".data ≠ "March 6 2009 4:30pm PST".data := by
  refine ⟨by decide, by decide⟩

/-- C4, amended: when the sourceTz argument is the timezone of the parsed
string, the conversion is the claimed one, so the EST to PST example holds;
in general the result is formatDate of addHours by target offset minus the
offset of the explicit sourceTz argument, with the target label appended. -/
theorem C4_amended :
    (convertTimezone "March 6 2009 7:30pm EST".data "EST".data "PST".data =
      .ok "March 6 2009 4:30pm PST".data) ∧
    (∀ (s src tgt : JStr) (p : ParsedDate) (srcOff tgtOff : Int),
      parseDateString s = Except.ok p →
      TIMEZONE_OFFSETS src = some srcOff →
      TIMEZONE_OFFSETS tgt = some tgtOff →
      convertTimezone s src tgt =
        Except.ok (formatDate ((addHours p (tgtOff - srcOff)).newDate) tgt)) := by
  constructor
  · decide
  · intro s src tgt p srcOff tgtOff hp hso hto
    simp only [convertTimezone, hp, hso, hto, addHours]

/-- C4, witness: the general conversion law applied at the EST example with
UTC as target. -/
theorem C4_witness :
    convertTimezone "March 6 2009 7:30pm EST".data "EST".data "UTC".data =
      Except.ok (formatDate ((addHours { year := some 2009, month := 2,
                                         day := some 6, hour := 19,
                                         minute := 30, timezone := "EST".data,
                                         originalString :=
                                           "March 6 2009 7:30pm EST".data }
        (0 - -5)).newDate) "UTC".data) :=
  C4_amended.2 "March 6 2009 7:30pm EST".data "EST".data "UTC".data
    { year := some 2009, month := 2, day := some 6, hour := 19, minute := 30,
      timezone := "EST".data,
      originalString := "March 6 2009 7:30pm EST".data }
    (-5) 0 (by decide) (by decide) (by decide)

/-- C5, counterexample: convertTimezone does not fail when the target label
is outside the fixed set; the undefined offset makes the hour difference NaN
and a garbage string is returned instead of an UnknownTimezone error. -/
theorem C5_counterexample :
    convertTimezone "March 6 2009 7:30pm EST".data "EST".data "XYZ".data =
      .ok "undefined NaN NaN NaN:NaNam XYZ".data := by
  decide

/-- C5, amended: parseDateString fails with UnknownTimezone when token 4 is
outside the fixed set and the earlier-validated tokens are well formed, and
convertTimezone propagates every parse error of its date string; an unknown
source or target label passed as an argument causes no failure. -/
theorem C5_amended :
    (∀ (s m dtok ytok ttok ztok : JStr) (rest : List JStr) (hds mds mk : JStr),
      jsSplitWs (jsTrim s) = m :: dtok :: ytok :: ttok :: ztok :: rest →
      MONTHS.contains m = true →
      regexMatchTime ttok = some (hds, mds, mk) →
      dayOutOfRange (jsParseInt dtok) = false →
      SUPPORTED_TIMEZONES.contains ztok = false →
      parseDateString s = Except.error ParseError.unknownTimezone) ∧
    (∀ (s src tgt : JStr) (e : ParseError), parseDateString s = Except.error e →
      convertTimezone s src tgt = Except.error e) := by
  constructor
  · intro s m dtok ytok ttok ztok rest hds mds mk hsplit hm ht hd hz
    exact parse_tokens_unknownTz hsplit hm ht hd hz
  · intro s src tgt e hp
    simp only [convertTimezone, hp]

/-- C5, witness: an unknown timezone token in the parsed string yields
UnknownTimezone from parseDateString and from convertTimezone. -/
theorem C5_witness :
    parseDateString "March 6 2009 7:30pm XYZ".data =
      Except.error ParseError.unknownTimezone ∧
    convertTimezone "March 6 2009 7:30pm XYZ".data "EST".data "PST".data =
      Except.error ParseError.unknownTimezone := by
  have h1 := C5_amended.1 "March 6 2009 7:30pm XYZ".data "March".data "6".data
    "2009".data "7:30pm".data "XYZ".data [] "7".data "30".data "pm".data
    (by decide) (by decide) (by decide) (by decide) (by decide)
  exact ⟨h1, C5_amended.2 "March 6 2009 7:30pm XYZ".data "EST".data "PST".data
    ParseError.unknownTimezone h1⟩

/-- C6, counterexample: a non-integer day token does not fail with
InvalidDay; parseInt yields NaN, both range comparisons are false on NaN, and
the parse succeeds with a NaN day field. -/
theorem C6_counterexample :
    parseDateString "January x 2020 1:00pm EST".data =
      .ok { year := some 2020, month := 0, day := none, hour := 13,
            minute := 0, timezone := "EST".data,
            originalString := "January x 2020 1:00pm EST".data } := by
  decide

/-- C6, amended: a day token whose parseInt value is an integer outside 1-31
fails with InvalidDay; every day whose parseInt value is in 1-31, and every
day token whose parseInt is NaN, is accepted regardless of the month; the
range test fires exactly on non-NaN values outside 1-31. -/
theorem C6_amended :
    (∀ (s m dtok ytok ttok ztok : JStr) (rest : List JStr)
        (hds mds mk : JStr) (dv : Int),
      jsSplitWs (jsTrim s) = m :: dtok :: ytok :: ttok :: ztok :: rest →
      MONTHS.contains m = true →
      regexMatchTime ttok = some (hds, mds, mk) →
      jsParseInt dtok = some dv → dv < 1 ∨ 31 < dv →
      parseDateString s = Except.error ParseError.invalidDay) ∧
    (∀ (s m dtok ytok ttok ztok : JStr) (rest : List JStr) (hds mds mk : JStr),
      jsSplitWs (jsTrim s) = m :: dtok :: ytok :: ttok :: ztok :: rest →
      MONTHS.contains m = true →
      regexMatchTime ttok = some (hds, mds, mk) →
      dayOutOfRange (jsParseInt dtok) = false →
      SUPPORTED_TIMEZONES.contains ztok = true →
      ∃ p, parseDateString s = Except.ok p ∧ p.day = jsParseInt dtok) ∧
    (∀ dv : Option Int, dayOutOfRange dv = true ↔
      ∃ d, dv = some d ∧ (d < 1 ∨ 31 < d)) := by
  refine ⟨?_, ?_, ?_⟩
  · intro s m dtok ytok ttok ztok rest hds mds mk dv hsplit hm ht hdv hout
    refine parse_tokens_invalidDay hsplit hm ht ?_
    rw [hdv]
    simp [dayOutOfRange]
    omega
  · intro s m dtok ytok ttok ztok rest hds mds mk hsplit hm ht hd hz
    exact ⟨_, parse_tokens_ok hsplit hm ht hd hz, rfl⟩
  · intro dv
    cases dv with
    | none => simp [dayOutOfRange]
    | some d =>
      simp [dayOutOfRange]

/-- C6, witness: day 32 fails with InvalidDay; day 31 is accepted even in
February. -/
theorem C6_witness :
    parseDateString "January 32 2020 1:00pm EST".data =
      Except.error ParseError.invalidDay ∧
    ∃ p, parseDateString "February 31 2020 1:00pm EST".data = Except.ok p ∧
      p.day = jsParseInt "31".data := by
  refine ⟨C6_amended.1 "January 32 2020 1:00pm EST".data "January".data
    "32".data "2020".data "1:00pm".data "EST".data [] "1".data "00".data
    "pm".data 32 (by decide) (by decide) (by decide) (by decide) (by decide), ?_⟩
  exact C6_amended.2.1 "February 31 2020 1:00pm EST".data "February".data
    "31".data "2020".data "1:00pm".data "EST".data [] "1".data "00".data
    "pm".data (by decide) (by decide) (by decide) (by decide) (by decide)

/-- C7, counterexample: a non-integer year token does not fail with
InvalidYear; the code never validates the year, so the parse succeeds with a
NaN year field. -/
theorem C7_counterexample :
    parseDateString "January 5 x 1:00pm EST".data =
      .ok { year := none, month := 0, day := some 5, hour := 13,
            minute := 0, timezone := "EST".data,
            originalString := "January 5 x 1:00pm EST".data } := by
  decide

/-- C7, amended: the parser never emits an InvalidYear failure: for every
year token whatsoever, with the other tokens well formed, the parse succeeds
and the year field is the parseInt of the token, NaN included; in particular
integer years of any magnitude and sign are accepted. -/
theorem C7_amended :
    ∀ (s m dtok ytok ttok ztok : JStr) (rest : List JStr) (hds mds mk : JStr),
      jsSplitWs (jsTrim s) = m :: dtok :: ytok :: ttok :: ztok :: rest →
      MONTHS.contains m = true →
      regexMatchTime ttok = some (hds, mds, mk) →
      dayOutOfRange (jsParseInt dtok) = false →
      SUPPORTED_TIMEZONES.contains ztok = true →
      ∃ p, parseDateString s = Except.ok p ∧ p.year = jsParseInt ytok := by
  intro s m dtok ytok ttok ztok rest hds mds mk hsplit hm ht hd hz
  exact ⟨_, parse_tokens_ok hsplit hm ht hd hz, rfl⟩

/-- C7, witness: a large negative year is accepted with that value. -/
theorem C7_witness :
    ∃ p, parseDateString "January 5 -999999999 1:00pm EST".data = Except.ok p ∧
      p.year = jsParseInt "-999999999".data :=
  C7_amended "January 5 -999999999 1:00pm EST".data "January".data "5".data
    "-999999999".data "1:00pm".data "EST".data [] "1".data "00".data "pm".data
    (by decide) (by decide) (by decide) (by decide) (by decide)

/-- C8, counterexample: the time regex is unanchored, so a token that merely
contains the time shape as a proper substring is accepted rather than
rejected: "x7:30pmy" parses with hour 19:30. -/
theorem C8_counterexample :
    parseDateString "March 6 2009 x7:30pmy EST".data =
      .ok { year := some 2009, month := 2, day := some 6, hour := 19,
            minute := 30, timezone := "EST".data,
            originalString := "March 6 2009 x7:30pmy EST".data } := by
  decide

/-- C8, amended: a time token in which the regex finds no match anywhere
makes the parse fail with InvalidTime as soon as five tokens are present; in
particular "730pm" with its missing colon yields InvalidTime. -/
theorem C8_amended :
    (∀ (s m dtok ytok ttok ztok : JStr) (rest : List JStr),
      jsSplitWs (jsTrim s) = m :: dtok :: ytok :: ttok :: ztok :: rest →
      regexMatchTime ttok = none →
      parseDateString s = Except.error ParseError.invalidTime) ∧
    parseDateString "March 6 2009 730pm EST".data =
      Except.error ParseError.invalidTime := by
  constructor
  · intro s m dtok ytok ttok ztok rest hsplit ht
    exact parse_tokens_invalidTime hsplit ht
  · decide

/-- C8, witness: a time token with a dot instead of a colon fails with
InvalidTime. -/
theorem C8_witness :
    parseDateString "March 6 2009 7.30pm EST".data =
      Except.error ParseError.invalidTime :=
  C8_amended.1 "March 6 2009 7.30pm EST".data "March".data "6".data "2009".data
    "7.30pm".data "EST".data [] (by decide) (by decide)

/-- C10: when the input splits into more than five tokens whose first five
are valid, parseDateString succeeds; all structured fields come from the
first five tokens alone, and only the originalString field carries the whole
input. -/
theorem C10_extra_tokens :
    ∀ (s m dtok ytok ttok ztok : JStr) (rest : List JStr) (hds mds mk : JStr),
      jsSplitWs (jsTrim s) = m :: dtok :: ytok :: ttok :: ztok :: rest →
      rest ≠ [] →
      MONTHS.contains m = true →
      regexMatchTime ttok = some (hds, mds, mk) →
      dayOutOfRange (jsParseInt dtok) = false →
      SUPPORTED_TIMEZONES.contains ztok = true →
      parseDateString s =
        Except.ok { year := jsParseInt ytok, month := (MONTHS.indexOf m : Nat),
                    day := jsParseInt dtok,
                    hour := to24 ((jsParseInt hds).getD 0) (mk.map lowerChar),
                    minute := (jsParseInt mds).getD 0, timezone := ztok,
                    originalString := s } := by
  intro s m dtok ytok ttok ztok rest hds mds mk hsplit hrest hm ht hd hz
  exact parse_tokens_ok hsplit hm ht hd hz

/-- C10, witness: two extra tokens after a valid five-token date are
ignored. -/
theorem C10_witness :
    parseDateString "March 6 2009 7:30pm EST extra stuff".data =
      Except.ok { year := jsParseInt "2009".data,
                  month := (MONTHS.indexOf "March".data : Nat),
                  day := jsParseInt "6".data,
                  hour := to24 ((jsParseInt "7".data).getD 0)
                    ("pm".data.map lowerChar),
                  minute := (jsParseInt "30".data).getD 0,
                  timezone := "EST".data,
                  originalString :=
                    "March 6 2009 7:30pm EST extra stuff".data } :=
  C10_extra_tokens "March 6 2009 7:30pm EST extra stuff".data "March".data
    "6".data "2009".data "7:30pm".data "EST".data ["extra".data, "stuff".data]
    "7".data "30".data "pm".data (by decide) (by decide) (by decide) (by decide)
    (by decide) (by decide)

theorem inLeapYear_gregorian (y : Int) :
    inLeapYear y = true ↔ (y % 4 = 0 ∧ (y % 100 ≠ 0 ∨ y % 400 = 0)) := by
  unfold inLeapYear daysInYear
  split_ifs <;> simp <;> omega

/-- C1, counterexample: the claim fails on two-digit years.  For the
structurally valid CivilDateTime February 28 of year 0 (a Gregorian leap
year, so the correct successor day is February 29 of year 0), adding 24 hours
instead lands on March 1 of year 1900: the Date constructor maps years 0..99
to 1900 + year, and 1900 is not a leap year. -/
theorem C1_counterexample :
    civilOf ((addHours { year := some 0, month := 1, day := some 28,
                         hour := 0, minute := 0, timezone := "EST".data,
                         originalString := [] } 24).newDate) =
      (some 1900, some 2, some 1, some 0, some 0) ∧
    ((some 1900 : Option Int), (some 2 : Option Int), (some 1 : Option Int),
        (some 0 : Option Int), (some 0 : Option Int)) ≠
      (some 0, some 1, some 29, some 0, some 0) := by
  refine ⟨by decide, by decide⟩

/-- C1, amended: for every structurally valid CivilDateTime whose year is
outside 0..99 (and of magnitude at most 100000, well within the Date range),
the carry of addHours respects exactly the Gregorian month lengths: one hour
past 23:00 of the last day of a month lands on day 1, hour 0 of the next
month, with December rolling into January of the next year; the model
computes leapness by the standard Gregorian rule; and both concrete examples
of the claim hold at the level of the produced date value and timezone. -/
theorem C1_amended :
    (∀ (y mo mi : Int) (tz os : JStr),
      y < 0 ∨ 100 ≤ y → -100000 ≤ y → y ≤ 100000 →
      0 ≤ mo → mo < 12 → 0 ≤ mi → mi < 60 →
      civilOf ((addHours { year := some y, month := mo,
                           day := some (monthLen (inLeapYear y) mo), hour := 23, minute := mi,
                           timezone := tz, originalString := os } 1).newDate) =
        (some (if mo = 11 then y + 1 else y),
          some (if mo = 11 then 0 else mo + 1), some 1, some 0, some mi)) ∧
    (∀ y : Int, inLeapYear y = true ↔
      (y % 4 = 0 ∧ (y % 100 ≠ 0 ∨ y % 400 = 0))) ∧
    ((parseDateString "February 29 2004 9:15pm EST".data).map
        (fun p => (addHours p 12).newDate) =
      (parseDateString "March 1 2004 9:15am EST".data).map
        (fun p => dateOf p)) ∧
    ((parseDateString "February 28 1900 3:15pm EST".data).map
        (fun p => (addHours p 12).newDate) =
      (parseDateString "March 1 1900 3:15am EST".data).map
        (fun p => dateOf p)) ∧
    ((parseDateString "February 29 2004 9:15pm EST".data).map
        (fun p => (addHours p 12).timezone) =
      (parseDateString "March 1 2004 9:15am EST".data).map
        (fun p => p.timezone)) := by
  refine ⟨?_, inLeapYear_gregorian, by decide, by decide, by decide⟩
  intro y mo mi tz os hy hy1 hy2 hmo0 hmo1 hmi0 hmi1
  have hml := monthLen_pos (inLeapYear y) hmo0 hmo1
  have hfull : fullYearOf y = y := by
    unfold fullYearOf
    rw [if_neg]
    simp
    omega
  have hmb := @makeDay_bound y mo (monthLen (inLeapYear y) mo) (by omega)
    (by omega) hmo0 hmo1 (by omega) (by omega)
  have hmo2 : 0 ≤ (if mo = 11 then (0 : Int) else mo + 1) ∧
      (if mo = 11 then (0 : Int) else mo + 1) < 12 := by
    split_ifs <;> omega
  have hml2 := monthLen_pos (inLeapYear (if mo = 11 then y + 1 else y))
    hmo2.1 hmo2.2
  have hnext : makeDay y mo (monthLen (inLeapYear y) mo) + 1 =
      makeDay (if mo = 11 then y + 1 else y) (if mo = 11 then 0 else mo + 1)
        1 := by
    by_cases h11 : mo = 11
    · subst h11
      have e1 : (if (11 : Int) = 11 then y + 1 else y) = y + 1 := by norm_num
      have e2 : (if (11 : Int) = 11 then (0 : Int) else 11 + 1) = 0 := by
        norm_num
      rw [e1, e2]
      rw [@makeDay_std y 11 (monthLen (inLeapYear y) 11) (by norm_num)
          (by norm_num),
        @makeDay_std (y + 1) 0 1 (by norm_num) (by norm_num)]
      have hlast := monthStart_last (inLeapYear y)
      have hde := daysInYear_eq y
      have hsucc := dayFromYear_succ y
      have hms0 : monthStart (inLeapYear (y + 1)) 0 = 0 := by
        unfold monthStart
        simp
      omega
    · rw [if_neg h11, if_neg h11]
      rw [@makeDay_std y mo (monthLen (inLeapYear y) mo) hmo0 hmo1,
        @makeDay_std y (mo + 1) 1 (by omega) (by omega)]
      have hsucc := monthStart_succ (inLeapYear y) hmo0 (by omega)
      omega
  have ht0 : dateOf { year := some y, month := mo,
                      day := some (monthLen (inLeapYear y) mo), hour := 23, minute := mi,
                      timezone := tz, originalString := os } =
      some (makeDay y mo (monthLen (inLeapYear y) mo) * 1440 + 23 * 60 + mi) := by
    show timeClip (makeDay (fullYearOf y) mo (monthLen (inLeapYear y) mo) *
      1440 + 23 * 60 + mi) = _
    rw [hfull]
    unfold timeClip
    rw [if_pos (by omega)]
  have hT : jsSetHoursAdd (dateOf { year := some y, month := mo,
                                    day := some (monthLen (inLeapYear y) mo), hour := 23, minute := mi,
                                    timezone := tz, originalString := os }) (some 1) =
      some (makeDay (if mo = 11 then y + 1 else y)
        (if mo = 11 then 0 else mo + 1) 1 * 1440 + 0 * 60 + mi) := by
    rw [ht0]
    show timeClip (makeDay y mo (monthLen (inLeapYear y) mo) * 1440 + 23 * 60 +
      mi + 1 * 60) = _
    unfold timeClip
    rw [if_pos (by omega)]
    congr 1
    omega
  have hdec := @decode_encode (if mo = 11 then y + 1 else y)
    (if mo = 11 then 0 else mo + 1) 1 0 mi hmo2.1 hmo2.2 le_rfl (by omega)
    le_rfl (by norm_num) hmi0 hmi1
  show civilOf (jsSetHoursAdd (dateOf _) (some 1)) = _
  rw [hT]
  simp only [civilOf, getFullYear_some, getMonth_some, getDate_some,
    getHours_some, getMinutes_some]
  rw [hdec.1, hdec.2.1, hdec.2.2.1, hdec.2.2.2.1, hdec.2.2.2.2]

/-- C1, witness: the amended carry law at January 31 2004, 23:15. -/
theorem C1_witness :
    civilOf ((addHours { year := some 2004, month := 0,
                         day := some (monthLen (inLeapYear 2004) 0), hour := 23, minute := 15,
                         timezone := "EST".data, originalString := [] } 1).newDate) =
      (some (if (0 : Int) = 11 then 2004 + 1 else 2004),
        some (if (0 : Int) = 11 then 0 else 0 + 1), some 1, some 0, some 15) :=
  C1_amended.1 2004 0 15 "EST".data [] (Or.inr (by decide)) (by decide)
    (by decide) (by decide) (by decide) (by decide) (by decide)

/-- C2, counterexample: the round trip fails on a parser-accepted
non-canonical date.  February 31 2021 is accepted (day 31 passes the range
test); addHours 24 lands on the date value of March 4 2021 13:00; reading
that result back as a CivilDateTime and applying addHours with -24 gives
March 3 2021 13:00, not the original February 31 fields. -/
theorem C2_counterexample :
    parseDateString "February 31 2021 1:00pm EST".data =
      .ok { year := some 2021, month := 1, day := some 31, hour := 13,
            minute := 0, timezone := "EST".data,
            originalString := "February 31 2021 1:00pm EST".data } ∧
    civilOf ((addHours { year := some 2021, month := 1, day := some 31,
                         hour := 13, minute := 0, timezone := "EST".data,
                         originalString := "February 31 2021 1:00pm EST".data } 24).newDate) =
      (some 2021, some 2, some 4, some 13, some 0) ∧
    civilOf ((addHours { year := some 2021, month := 2, day := some 4,
                         hour := 13, minute := 0, timezone := "EST".data,
                         originalString := [] } (-24)).newDate) =
      (some 2021, some 2, some 3, some 13, some 0) ∧
    ((some 2021 : Option Int), (some 2 : Option Int), (some 3 : Option Int),
        (some 13 : Option Int), (some 0 : Option Int)) ≠
      (some 2021, some 1, some 31, some 13, some 0) := by
  refine ⟨by decide, by decide, by decide, by decide⟩

/-- C2, amended: the civil round trip holds on canonical field values: if
the CivilDateTime has a day within the Gregorian month length, in-range hour
and minute, and a year outside 0..99 of moderate magnitude, and the
intermediate result of addHours also has a year outside 0..99, then reading
the intermediate date value back as a CivilDateTime and applying addHours
with the negated delta returns exactly the original civil fields. -/
theorem C2_amended :
    ∀ (y mo d1 hr mi dlt : Int) (tz os tz2 os2 : JStr),
      y < 0 ∨ 100 ≤ y → -100000 ≤ y → y ≤ 100000 →
      -100000000 ≤ dlt → dlt ≤ 100000000 →
      0 ≤ mo → mo < 12 → 1 ≤ d1 → d1 ≤ monthLen (inLeapYear y) mo →
      0 ≤ hr → hr < 24 → 0 ≤ mi → mi < 60 →
      (yearOfT (makeDay y mo d1 * 1440 + hr * 60 + mi + dlt * 60) < 0 ∨
        100 ≤ yearOfT (makeDay y mo d1 * 1440 + hr * 60 + mi + dlt * 60)) →
      (addHours { year := some y, month := mo, day := some d1, hour := hr,
                  minute := mi, timezone := tz, originalString := os } dlt).newDate =
        some (makeDay y mo d1 * 1440 + hr * 60 + mi + dlt * 60) ∧
      civilOf ((addHours {
          year := some (yearOfT (makeDay y mo d1 * 1440 + hr * 60 + mi + dlt * 60)),
          month := monthOfT (makeDay y mo d1 * 1440 + hr * 60 + mi + dlt * 60),
          day := some (dateOfT (makeDay y mo d1 * 1440 + hr * 60 + mi + dlt * 60)),
          hour := (makeDay y mo d1 * 1440 + hr * 60 + mi + dlt * 60) / 60 % 24,
          minute := (makeDay y mo d1 * 1440 + hr * 60 + mi + dlt * 60) % 60,
          timezone := tz2, originalString := os2 } (-dlt)).newDate) =
        (some y, some mo, some d1, some hr, some mi) := by
  intro y mo d1 hr mi dlt tz os tz2 os2 hy hy1 hy2 hdl hdl2 hmo0 hmo1 hd1
    hd2 hhr0 hhr1 hmi0 hmi1 hyi
  have hml := monthLen_pos (inLeapYear y) hmo0 hmo1
  have hfull : fullYearOf y = y := by
    unfold fullYearOf
    rw [if_neg]
    simp
    omega
  have hmb := @makeDay_bound y mo d1 (by omega) (by omega) hmo0 hmo1
    (by omega) (by omega)
  have ht0 : dateOf { year := some y, month := mo, day := some d1, hour := hr,
                      minute := mi, timezone := tz, originalString := os } =
      some (makeDay y mo d1 * 1440 + hr * 60 + mi) := by
    show timeClip (makeDay (fullYearOf y) mo d1 * 1440 + hr * 60 + mi) = _
    rw [hfull]
    unfold timeClip
    rw [if_pos (by omega)]
  have hT1 : (addHours { year := some y, month := mo, day := some d1,
                         hour := hr, minute := mi, timezone := tz,
                         originalString := os } dlt).newDate =
      some (makeDay y mo d1 * 1440 + hr * 60 + mi + dlt * 60) := by
    show jsSetHoursAdd (dateOf _) (some dlt) = _
    rw [ht0]
    show timeClip _ = _
    unfold timeClip
    rw [if_pos (by omega)]
  refine ⟨hT1, ?_⟩
  have hrg := decode_ranges (makeDay y mo d1 * 1440 + hr * 60 + mi + dlt * 60)
  have hfull2 : fullYearOf (yearOfT (makeDay y mo d1 * 1440 + hr * 60 + mi +
      dlt * 60)) = yearOfT (makeDay y mo d1 * 1440 + hr * 60 + mi + dlt * 60) := by
    unfold fullYearOf
    rw [if_neg]
    simp
    omega
  have henc := encode_decode (makeDay y mo d1 * 1440 + hr * 60 + mi + dlt * 60)
  have htq : dateOf {
      year := some (yearOfT (makeDay y mo d1 * 1440 + hr * 60 + mi + dlt * 60)),
      month := monthOfT (makeDay y mo d1 * 1440 + hr * 60 + mi + dlt * 60),
      day := some (dateOfT (makeDay y mo d1 * 1440 + hr * 60 + mi + dlt * 60)),
      hour := (makeDay y mo d1 * 1440 + hr * 60 + mi + dlt * 60) / 60 % 24,
      minute := (makeDay y mo d1 * 1440 + hr * 60 + mi + dlt * 60) % 60,
      timezone := tz2, originalString := os2 } =
      some (makeDay y mo d1 * 1440 + hr * 60 + mi + dlt * 60) := by
    show timeClip (makeDay (fullYearOf _) _ _ * 1440 + _ * 60 + _) = _
    rw [hfull2, henc]
    unfold timeClip
    rw [if_pos (by omega)]
  have hdec := @decode_encode y mo d1 hr mi hmo0 hmo1 hd1 hd2 hhr0 hhr1
    hmi0 hmi1
  show civilOf (jsSetHoursAdd (dateOf _) (some (-dlt))) = _
  rw [htq]
  have hback : timeClip (makeDay y mo d1 * 1440 + hr * 60 + mi + dlt * 60 +
      -dlt * 60) = some (makeDay y mo d1 * 1440 + hr * 60 + mi) := by
    unfold timeClip
    rw [if_pos (by omega)]
    congr 1
    omega
  show civilOf (timeClip _) = _
  rw [hback]
  simp only [civilOf, getFullYear_some, getMonth_some, getDate_some,
    getHours_some, getMinutes_some]
  rw [hdec.1, hdec.2.1, hdec.2.2.1, hdec.2.2.2.1, hdec.2.2.2.2]

/-- C2, witness: the amended round trip at February 28 2021 13:00 with a
delta of 24 hours. -/
theorem C2_witness :
    (addHours { year := some 2021, month := 1, day := some 28, hour := 13,
                minute := 0, timezone := "EST".data, originalString := [] }
      24).newDate =
      some (makeDay 2021 1 28 * 1440 + 13 * 60 + 0 + 24 * 60) ∧
    civilOf ((addHours {
        year := some (yearOfT (makeDay 2021 1 28 * 1440 + 13 * 60 + 0 + 24 * 60)),
        month := monthOfT (makeDay 2021 1 28 * 1440 + 13 * 60 + 0 + 24 * 60),
        day := some (dateOfT (makeDay 2021 1 28 * 1440 + 13 * 60 + 0 + 24 * 60)),
        hour := (makeDay 2021 1 28 * 1440 + 13 * 60 + 0 + 24 * 60) / 60 % 24,
        minute := (makeDay 2021 1 28 * 1440 + 13 * 60 + 0 + 24 * 60) % 60,
        timezone := "EST".data, originalString := [] } (-24)).newDate) =
      (some 2021, some 1, some 28, some 13, some 0) :=
  C2_amended 2021 1 28 13 0 24 "EST".data [] "EST".data [] (Or.inr (by decide))
    (by decide) (by decide) (by decide) (by decide) (by decide) (by decide)
    (by decide) (by decide) (by decide) (by decide) (by decide) (by decide)
    (Or.inr (by decide))


/-! ### Lemmas for the standalone add12Hours -/

theorem isDigit_ne_apm {c : Char} (h : c.isDigit = true) :
    c ≠ 'a' ∧ c ≠ 'p' ∧ c ≠ 'm' ∧ c ≠ ':' := by
  refine ⟨?_, ?_, ?_, ?_⟩ <;> rintro rfl <;> simp at h

theorem splitColonAux_free : ∀ (l : JStr), (∀ c ∈ l, c ≠ ':') →
    ∀ acc, splitColonAux l acc = [acc.reverse ++ l]
  | [], _, acc => by simp [splitColonAux]
  | c :: t, h, acc => by
    have hc : c ≠ ':' := h c (by simp)
    have ht : ∀ d ∈ t, d ≠ ':' := fun d hd => h d (by simp [hd])
    simp only [splitColonAux, if_neg hc]
    rw [splitColonAux_free t ht (c :: acc)]
    simp

theorem splitColonAux_mid : ∀ (a : JStr), (∀ c ∈ a, c ≠ ':') → ∀ (b : JStr),
    (∀ c ∈ b, c ≠ ':') → ∀ acc,
    splitColonAux (a ++ ':' :: b) acc = [acc.reverse ++ a, b]
  | [], _, b, hb, acc => by
    simp only [List.nil_append, splitColonAux, if_pos rfl]
    rw [splitColonAux_free b hb []]
    simp
  | c :: t, h, b, hb, acc => by
    have hc : c ≠ ':' := h c (by simp)
    have ht : ∀ d ∈ t, d ≠ ':' := fun d hd => h d (by simp [hd])
    simp only [List.cons_append, splitColonAux, if_neg hc, List.append_eq]
    rw [splitColonAux_mid t ht b hb (c :: acc)]
    simp

theorem splitColon_pair {a b : JStr} (ha : ∀ c ∈ a, c ≠ ':')
    (hb : ∀ c ∈ b, c ≠ ':') : splitColon (a ++ ':' :: b) = [a, b] := by
  unfold splitColon
  rw [splitColonAux_mid a ha b hb []]
  simp

theorem replaceApm_cons_digit {c : Char} (h : c.isDigit = true) (l : JStr) :
    replaceApm (c :: l) = c :: replaceApm l := by
  obtain ⟨h1, h2, h3, _⟩ := isDigit_ne_apm h
  simp [replaceApm, h1, h2, h3]

theorem leadMatch_refl : ∀ (l : JStr), leadMatch l l = true
  | [] => rfl
  | a :: t => by simp [leadMatch, leadMatch_refl t]

theorem hasSub_suffix : ∀ (x : JStr) {n : JStr}, n ≠ [] → hasSub (x ++ n) n = true
  | [], n, hn => by
    match n, hn with
    | a :: t, _ => simp [hasSub, leadMatch_refl]
  | c :: x, n, hn => by
    simp only [List.cons_append, hasSub, List.append_eq]
    rw [hasSub_suffix x hn]
    simp

theorem hasSub_pm_free : ∀ {l : JStr}, (∀ c ∈ l, c ≠ 'p') →
    hasSub l ('p' :: 'm' :: []) = false
  | [], _ => rfl
  | c :: t, h => by
    have hc : c ≠ 'p' := h c (by simp)
    have ht : ∀ d ∈ t, d ≠ 'p' := fun d hd => h d (by simp [hd])
    simp [hasSub, leadMatch, hc, hasSub_pm_free ht]

theorem getMonthIndex_eq {m : JStr} (h : MONTHS.contains m = true) :
    getMonthIndex m = ((MONTHS.indexOf m : Nat) : Int) := by
  show (if MONTHS.contains m = true then ((MONTHS.indexOf m : Nat) : Int)
        else -1) = ((MONTHS.indexOf m : Nat) : Int)
  rw [if_pos h]

theorem getMonthName_eq (x : Option Int) : getMonthName x = monthNameAt x := by
  cases x <;> rfl

/-- C9, counterexample: on the grammar-accepted input
"March 6 2009 7:30PM EST" (upper-case marker, which the parser's
case-insensitive regex accepts) the composed pipeline parse, addHours 12,
formatDate yields "March 7 2009 7:30am EST", while the standalone add12Hours
strips and detects only lower-case markers, reads the time as 7:30am, and
returns "March 6 2009 7:30pm EST". -/
theorem C9_counterexample :
    (match parseDateString "March 6 2009 7:30PM EST".data with
     | Except.ok p =>
       some (formatDate ((addHours p 12).newDate) ((addHours p 12).timezone))
     | Except.error _ => none) = some "March 7 2009 7:30am EST".data ∧
    add12Hours "March 6 2009 7:30PM EST".data =
      some "March 6 2009 7:30pm EST".data ∧
    some "March 6 2009 7:30pm EST".data ≠
      (some "March 7 2009 7:30am EST".data : Option JStr) := by
  refine ⟨by decide, by decide, by decide⟩

/-- C9, amended: the standalone add12Hours agrees with the composed pipeline
parseDateString, addHours 12, formatDate with the parsed timezone label on
every five-token input of the grammar whose am/pm marker is lower-case: month
token in the fixed list, any day token passing the range test, any year
token, time token of the shape one-or-two digits, colon, two digits, then
"am" or "pm", and a supported timezone token.  (For an upper-case marker the
two implementations diverge.) -/
theorem C9_amended (s mtok dtok ytok htok ztok : JStr) (m1 m2 : Char)
    (marker : JStr)
    (htrim : jsTrim s = s)
    (hsplit : jsSplitWs s =
      [mtok, dtok, ytok, htok ++ ':' :: ([m1, m2] ++ marker), ztok])
    (hmk : marker = "am".data ∨ marker = "pm".data)
    (hht0 : htok ≠ [])
    (hhtd : ∀ c ∈ htok, c.isDigit = true)
    (hhtl : htok.length = 1 ∨ htok.length = 2)
    (hm1 : m1.isDigit = true) (hm2 : m2.isDigit = true)
    (hmon : MONTHS.contains mtok = true)
    (hday : dayOutOfRange (jsParseInt dtok) = false)
    (htz : SUPPORTED_TIMEZONES.contains ztok = true) :
    ∀ p, parseDateString s = Except.ok p →
      add12Hours s =
        some (formatDate ((addHours p 12).newDate) ((addHours p 12).timezone)) := by
  intro p hp
  have hampm : ampmAt marker = some (marker, []) := by
    rcases hmk with rfl | rfl <;> decide
  have hsplit2 : jsSplitWs (jsTrim s) =
      mtok :: dtok :: ytok :: (htok ++ ':' :: ([m1, m2] ++ marker)) ::
        ztok :: [] := by
    rw [htrim, hsplit]
  have hregex : regexMatchTime (htok ++ ':' :: ([m1, m2] ++ marker)) =
      some (htok, [m1, m2], marker) := by
    rcases hhtl with hl1 | hl2
    · obtain ⟨c1, rfl⟩ := List.length_eq_one.mp hl1
      simpa using regexMatch_time1 (hhtd c1 (by simp)) hm1 hm2 hampm
    · obtain ⟨c1, c2, rfl⟩ := List.length_eq_two.mp hl2
      simpa using regexMatch_time2 (hhtd c1 (by simp)) (hhtd c2 (by simp))
        hm1 hm2 hampm
  have hP := parse_tokens_ok hsplit2 hmon hregex hday htz
  rw [hp] at hP
  injection hP with hP
  subst hP
  have hmmdig : ∀ c ∈ ([m1, m2] : JStr), c.isDigit = true := by
    intro c hc
    rcases List.mem_cons.mp hc with rfl | hc2
    · exact hm1
    · simp at hc2
      subst hc2
      exact hm2
  have hparseh : jsParseInt htok = some (digitsVal htok) :=
    jsParseInt_digits hht0 hhtd
  have hparsem : jsParseInt [m1, m2] = some (digitsVal [m1, m2]) :=
    jsParseInt_digits (by simp) hmmdig
  have hcf1 : ∀ c ∈ htok, c ≠ ':' := fun c hc => (isDigit_ne_apm (hhtd c hc)).2.2.2
  have hcf2 : ∀ c ∈ [m1, m2] ++ marker, c ≠ ':' := by
    intro c hc
    rcases List.mem_append.mp hc with hc1 | hc2
    · exact (isDigit_ne_apm (hmmdig c hc1)).2.2.2
    · rcases hmk with h | h <;> subst h <;> simp at hc2 <;>
        rcases hc2 with rfl | rfl <;> decide
  have hsplitc : splitColon (htok ++ ':' :: ([m1, m2] ++ marker)) =
      [htok, [m1, m2] ++ marker] := splitColon_pair hcf1 hcf2
  have hreplace : replaceApm ([m1, m2] ++ marker) = [m1, m2] := by
    show replaceApm (m1 :: m2 :: marker) = [m1, m2]
    rw [replaceApm_cons_digit hm1, replaceApm_cons_digit hm2]
    rcases hmk with rfl | rfl <;> rfl
  have hmonidx : getMonthIndex mtok = ((MONTHS.indexOf mtok : Nat) : Int) :=
    getMonthIndex_eq hmon
  rcases hmk with rfl | rfl
  · have hsubf : hasSub ([m1, m2] ++ "am".data) "pm".data = false := by
      apply hasSub_pm_free
      intro c hc
      rcases List.mem_append.mp hc with hc1 | hc2
      · exact (isDigit_ne_apm (hmmdig c hc1)).2.1
      · simp at hc2
        rcases hc2 with rfl | rfl <;> decide
    have hlow : List.map lowerChar "am".data = "am".data := by decide
    have hlow2 : List.map lowerChar (['a', 'm'] : JStr) = ['a', 'm'] := by decide
    by_cases h12 : digitsVal htok = 12
    · simp only [add12Hours, hsplit, List.get?_cons_zero, List.get?_cons_succ,
        Option.getD_some, hsplitc, hparseh, hparsem, hreplace, hmonidx, hsubf,
        addHours, dateOf, formatDate, getMonthName_eq, hlow, hlow2]
      simp [to24, h12, hlow, hlow2]
    · simp only [add12Hours, hsplit, List.get?_cons_zero, List.get?_cons_succ,
        Option.getD_some, hsplitc, hparseh, hparsem, hreplace, hmonidx, hsubf,
        addHours, dateOf, formatDate, getMonthName_eq, hlow, hlow2]
      simp [to24, h12, hlow, hlow2]
  · have hsubt : hasSub ([m1, m2] ++ "pm".data) "pm".data = true :=
      hasSub_suffix [m1, m2] (by simp)
    have hlow : List.map lowerChar "pm".data = "pm".data := by decide
    have hlow2 : List.map lowerChar (['p', 'm'] : JStr) = ['p', 'm'] := by decide
    by_cases h12 : digitsVal htok = 12
    · simp only [add12Hours, hsplit, List.get?_cons_zero, List.get?_cons_succ,
        Option.getD_some, hsplitc, hparseh, hparsem, hreplace, hmonidx, hsubt,
        addHours, dateOf, formatDate, getMonthName_eq, hlow, hlow2]
      simp [to24, h12, hlow, hlow2]
    · simp only [add12Hours, hsplit, List.get?_cons_zero, List.get?_cons_succ,
        Option.getD_some, hsplitc, hparseh, hparsem, hreplace, hmonidx, hsubt,
        addHours, dateOf, formatDate, getMonthName_eq, hlow, hlow2]
      simp [to24, h12, hlow, hlow2]

/-- C9, witness: the agreement at the lower-case input
"March 6 2009 7:30pm EST". -/
theorem C9_witness :
    add12Hours "March 6 2009 7:30pm EST".data =
      some (formatDate
        ((addHours {
            year := some 2009
            month := 2
            day := some 6
            hour := 19
            minute := 30
            timezone := "EST".data
            originalString := "March 6 2009 7:30pm EST".data } 12).newDate)
        ((addHours {
            year := some 2009
            month := 2
            day := some 6
            hour := 19
            minute := 30
            timezone := "EST".data
            originalString := "March 6 2009 7:30pm EST".data } 12).timezone)) :=
  C9_amended "March 6 2009 7:30pm EST".data "March".data "6".data "2009".data
    "7".data "EST".data '3' '0' "pm".data (by decide) (by decide)
    (Or.inr rfl) (by decide) (by decide) (by decide) (by decide) (by decide)
    (by decide) (by decide) (by decide)
    {
      year := some 2009
      month := 2
      day := some 6
      hour := 19
      minute := 30
      timezone := "EST".data
      originalString := "March 6 2009 7:30pm EST".data }
    (by decide)

end DateRepo
